import Mathlib

/-!
# Verification of the embedded GTFS-RT protobuf decoder

Shallow embedding of the hand-rolled Protocol Buffers decoder in
`ArcGISPro/GTFS-Protobuf-decode-embedded.py` (class `_ProtoReader` and the
`_parse_*` assemblers), together with the normalization logic of the two
bindings-based notebook scripts (`Adelaide-Metro-Notebook.py` and
`Adelaide-Metro-Notebook-ChatGPT-Improvements.py`).

Modelling conventions:
* A Python `bytes` buffer is a `List Nat` (each element a byte value).
* The mutable cursor `_ProtoReader` (fields `data`, `i`, `n`) is embedded as
  the structure `ProtoReader`.  Each primitive read is first defined as a
  pure function over the *suffix* of the buffer starting at the cursor
  (returning the decoded value together with the number of bytes consumed),
  and the `_ProtoReader` method is the wrapper advancing `i` by the consumed
  count.  A Python exception is an `Except.error`; since Python mutates
  `self.i` *before* raising, every primitive returns the (possibly advanced)
  final cursor even in the error case.
* `struct.unpack("<f", ·)` / `("<d", ·)` reinterpret the 4/8 raw bytes as an
  IEEE float; that reinterpretation is a bijection on the consumed bytes, so
  float values are modelled by their raw little-endian byte payloads (no
  float arithmetic is performed anywhere in the decoder).
* `bytes.decode("utf-8", "ignore")` is embedded as `decodeUtf8Ignore`.
* Each Python `while not r.eof():` loop body becomes a `...Step` function
  (one iteration, returning the updated output record and the bytes it
  consumed) and the loop itself a structurally recursive `...Loop` driven by
  a fuel argument; the wrapper supplies fuel `data.length + 1`, which always
  suffices because every successful iteration consumes at least one byte.
-/

/-- Decidable equality for `Except`, so that concrete decoder runs can be
checked with `decide`. -/
instance {ε : Type u} {α : Type v} [DecidableEq ε] [DecidableEq α] : DecidableEq (Except ε α)
  | Except.error a, Except.error b => decidable_of_iff (a = b) (by simp)
  | Except.error _, Except.ok _ => Decidable.isFalse (by simp)
  | Except.ok _, Except.error _ => Decidable.isFalse (by simp)
  | Except.ok a, Except.ok b => decidable_of_iff (a = b) (by simp)

/-- One iteration of the `_ProtoReader.read_varint` `while True` loop, over
the remaining bytes.  Mirrors: read `b = data[i]`, `i += 1`,
`result |= (b & 0x7F) << shift`; stop when the continuation bit is clear;
after `shift += 7`, raise `Varint too long` when `shift >= 64`.  Returns the
decoded value (or the raised error) together with the number of bytes
consumed, including those consumed before a raise. -/
def readVarintList : List Nat → Nat → Nat → Except String Nat × Nat
  | [], _, _ => (Except.error "Truncated varint", 0)
  | b :: rest, result, shift =>
    let result' := result ||| ((b &&& 0x7F) <<< shift)
    if b &&& 0x80 = 0 then (Except.ok result', 1)
    else if shift + 7 ≥ 64 then (Except.error "Varint too long", 1)
    else
      ((readVarintList rest result' (shift + 7)).1,
       (readVarintList rest result' (shift + 7)).2 + 1)

/-- `_ProtoReader._require(count)` followed by the slice
`data[start:start+count]`, over the remaining bytes: fail (consuming
nothing) when fewer than `count` bytes remain, else return the `count`-byte
slice, consuming it. -/
def readBytesList (rem : List Nat) (count : Nat) : Except String (List Nat) × Nat :=
  if count > rem.length then (Except.error "Truncated protobuf message", 0)
  else (Except.ok (rem.take count), count)

/-- `_ProtoReader.skip_field(wire_type)` over the remaining bytes:
varint for wire type 0, 8 bytes for 1, length-prefixed bytes for 2,
4 bytes for 5, and an error (consuming nothing) otherwise. -/
def skipFieldList (rem : List Nat) (wire_type : Nat) : Except String Unit × Nat :=
  if wire_type = 0 then
    match readVarintList rem 0 0 with
    | (Except.ok _, k) => (Except.ok (), k)
    | (Except.error e, k) => (Except.error e, k)
  else if wire_type = 1 then
    match readBytesList rem 8 with
    | (Except.ok _, k) => (Except.ok (), k)
    | (Except.error e, k) => (Except.error e, k)
  else if wire_type = 2 then
    match readVarintList rem 0 0 with
    | (Except.ok len, k) =>
      (match readBytesList (rem.drop k) len with
       | (Except.ok _, k2) => (Except.ok (), k + k2)
       | (Except.error e, k2) => (Except.error e, k + k2))
    | (Except.error e, k) => (Except.error e, k)
  else if wire_type = 5 then
    match readBytesList rem 4 with
    | (Except.ok _, k) => (Except.ok (), k)
    | (Except.error e, k) => (Except.error e, k)
  else (Except.error ("Unsupported protobuf wire type: " ++ toString wire_type), 0)

/-- The recurring Python idiom `length = r.read_varint(); sub = r.read_bytes(length)`
used for every length-delimited field, over the remaining bytes: the decoded
slice together with the total number of bytes consumed (length prefix plus
payload).  Failures of either read propagate. -/
def readLenDelim (rem : List Nat) : Except String (List Nat × Nat) :=
  match readVarintList rem 0 0 with
  | (Except.error e, _) => Except.error e
  | (Except.ok len, k) =>
    match readBytesList (rem.drop k) len with
    | (Except.error e, _) => Except.error e
    | (Except.ok bs, k2) => Except.ok (bs, k + k2)

/-- The `_ProtoReader` cursor: an immutable byte buffer `data` and the
current read offset `i` (the Python attribute `n` is `data.length`). -/
structure ProtoReader where
  data : List Nat
  i : Nat
deriving Repr, DecidableEq

/-- Python attribute `n = len(data)`. -/
def ProtoReader.n (r : ProtoReader) : Nat := r.data.length

/-- `_ProtoReader.eof()`: `self.i >= self.n`. -/
def ProtoReader.eof (r : ProtoReader) : Bool := decide (r.n ≤ r.i)

/-- `_ProtoReader.read_varint()`.  The final cursor reflects the bytes
consumed even when the read raises (Python increments `self.i` before
raising). -/
def ProtoReader.read_varint (r : ProtoReader) : Except String Nat × ProtoReader :=
  let p := readVarintList (r.data.drop r.i) 0 0
  (p.1, ⟨r.data, r.i + p.2⟩)

/-- `_ProtoReader.read_bytes(length)`: `_require` then the slice. -/
def ProtoReader.read_bytes (r : ProtoReader) (length : Nat) :
    Except String (List Nat) × ProtoReader :=
  let p := readBytesList (r.data.drop r.i) length
  (p.1, ⟨r.data, r.i + p.2⟩)

/-- `_ProtoReader.read_float()`: `_require(4)` then `struct.unpack("<f", ·)`,
modelled as the raw 4-byte payload. -/
def ProtoReader.read_float (r : ProtoReader) : Except String (List Nat) × ProtoReader :=
  let p := readBytesList (r.data.drop r.i) 4
  (p.1, ⟨r.data, r.i + p.2⟩)

/-- `_ProtoReader.read_double()`: `_require(8)` then `struct.unpack("<d", ·)`,
modelled as the raw 8-byte payload. -/
def ProtoReader.read_double (r : ProtoReader) : Except String (List Nat) × ProtoReader :=
  let p := readBytesList (r.data.drop r.i) 8
  (p.1, ⟨r.data, r.i + p.2⟩)

/-- `_ProtoReader.skip_field(wire_type)`. -/
def ProtoReader.skip_field (r : ProtoReader) (wire_type : Nat) :
    Except String Unit × ProtoReader :=
  let p := skipFieldList (r.data.drop r.i) wire_type
  (p.1, ⟨r.data, r.i + p.2⟩)

/-- Model of CPython's `bytes.decode("utf-8", "ignore")`: decode UTF-8
sequences; on invalid input drop the maximal valid subpart of the offending
sequence and resume at the first byte that does not continue it (an
incomplete sequence at the end of the buffer is dropped entirely).  Start
bytes `0x80`–`0xC1` and `0xF5`–`0xFF` are invalid (the former are stray
continuation bytes, `0xC0`/`0xC1` overlong); `0xE0`/`0xED`/`0xF0`/`0xF4`
restrict their first continuation byte exactly as CPython does (no
overlongs, no surrogates, nothing above `U+10FFFF`).  The first argument is
fuel making the recursion structural; every step consumes at least one
byte, so fuel `bs.length` (supplied by `decodeUtf8Ignore`) never runs out. -/
def utf8IgnoreAux : Nat → List Nat → List Char
  | 0, _ => []
  | _, [] => []
  | Nat.succ f, b :: rest =>
    if b < 0x80 then Char.ofNat b :: utf8IgnoreAux f rest
    else if b < 0xC2 then utf8IgnoreAux f rest
    else if b ≤ 0xDF then
      match rest with
      | [] => []
      | c1 :: rest1 =>
        if 0x80 ≤ c1 ∧ c1 ≤ 0xBF then
          Char.ofNat ((b - 0xC0) * 64 + (c1 - 0x80)) :: utf8IgnoreAux f rest1
        else utf8IgnoreAux f rest
    else if b ≤ 0xEF then
      match rest with
      | [] => []
      | c1 :: rest1 =>
        if (if b = 0xE0 then 0xA0 ≤ c1 ∧ c1 ≤ 0xBF
            else if b = 0xED then 0x80 ≤ c1 ∧ c1 ≤ 0x9F
            else 0x80 ≤ c1 ∧ c1 ≤ 0xBF) then
          match rest1 with
          | [] => []
          | c2 :: rest2 =>
            if 0x80 ≤ c2 ∧ c2 ≤ 0xBF then
              Char.ofNat ((b - 0xE0) * 4096 + (c1 - 0x80) * 64 + (c2 - 0x80)) ::
                utf8IgnoreAux f rest2
            else utf8IgnoreAux f rest1
        else utf8IgnoreAux f rest
    else if b ≤ 0xF4 then
      match rest with
      | [] => []
      | c1 :: rest1 =>
        if (if b = 0xF0 then 0x90 ≤ c1 ∧ c1 ≤ 0xBF
            else if b = 0xF4 then 0x80 ≤ c1 ∧ c1 ≤ 0x8F
            else 0x80 ≤ c1 ∧ c1 ≤ 0xBF) then
          match rest1 with
          | [] => []
          | c2 :: rest2 =>
            if 0x80 ≤ c2 ∧ c2 ≤ 0xBF then
              match rest2 with
              | [] => []
              | c3 :: rest3 =>
                if 0x80 ≤ c3 ∧ c3 ≤ 0xBF then
                  Char.ofNat ((b - 0xF0) * 262144 + (c1 - 0x80) * 4096 +
                      (c2 - 0x80) * 64 + (c3 - 0x80)) :: utf8IgnoreAux f rest3
                else utf8IgnoreAux f rest2
            else utf8IgnoreAux f rest1
        else utf8IgnoreAux f rest
    else utf8IgnoreAux f rest

/-- `bs.decode("utf-8", "ignore")` as a total `String`-valued function. -/
def decodeUtf8Ignore (bs : List Nat) : String := String.mk (utf8IgnoreAux bs.length bs)

namespace Embedded

/-- Output dictionary of `_parse_trip_descriptor` (all keys initialized to
`None`). -/
structure TripOut where
  trip_id : Option String
  route_id : Option String
  direction_id : Option Nat
  start_time : Option String
  start_date : Option String
deriving Repr, DecidableEq

/-- One iteration of the `_parse_trip_descriptor` loop: read the tag, split
it into `field = tag >> 3` and `wt = tag & 0x07`, and dispatch exactly as the
Python `if`/`elif`/`else` chain does; returns the updated dictionary and the
total number of bytes this iteration consumed. -/
def parseTripStep (rem : List Nat) (out : TripOut) : Except String (TripOut × Nat) :=
  match readVarintList rem 0 0 with
  | (Except.error e, _) => Except.error e
  | (Except.ok tag, k1) =>
    let field := tag >>> 3
    let wt := tag &&& 0x07
    let rest := rem.drop k1
    if wt = 2 ∧ (field = 1 ∨ field = 2 ∨ field = 3 ∨ field = 5) then
      match readLenDelim rest with
      | Except.error e => Except.error e
      | Except.ok (bs, k2) =>
        let s := decodeUtf8Ignore bs
        let out' :=
          if field = 1 then { out with trip_id := some s }
          else if field = 2 then { out with start_time := some s }
          else if field = 3 then { out with start_date := some s }
          else { out with route_id := some s }
        Except.ok (out', k1 + k2)
    else if wt = 0 ∧ field = 6 then
      match readVarintList rest 0 0 with
      | (Except.error e, _) => Except.error e
      | (Except.ok v, k2) => Except.ok ({ out with direction_id := some v }, k1 + k2)
    else
      match skipFieldList rest wt with
      | (Except.error e, _) => Except.error e
      | (Except.ok _, k2) => Except.ok (out, k1 + k2)

/-- The `while not r.eof()` loop of `_parse_trip_descriptor`, with fuel. -/
def parseTripLoop : Nat → List Nat → TripOut → Except String TripOut
  | 0, _, _ => Except.error "fuel exhausted"
  | Nat.succ fuel, rem, out =>
    match rem with
    | [] => Except.ok out
    | _ :: _ =>
      match parseTripStep rem out with
      | Except.error e => Except.error e
      | Except.ok (out', k) => parseTripLoop fuel (rem.drop k) out'

/-- `_parse_trip_descriptor(data)`. -/
def parse_trip_descriptor (data : List Nat) : Except String TripOut :=
  parseTripLoop (data.length + 1) data ⟨none, none, none, none, none⟩

/-- Output dictionary of `_parse_vehicle_descriptor`. -/
structure VehicleDescOut where
  vehicle_id : Option String
  vehicle_label : Option String
  license_plate : Option String
deriving Repr, DecidableEq

/-- One iteration of the `_parse_vehicle_descriptor` loop. -/
def parseVehicleDescStep (rem : List Nat) (out : VehicleDescOut) :
    Except String (VehicleDescOut × Nat) :=
  match readVarintList rem 0 0 with
  | (Except.error e, _) => Except.error e
  | (Except.ok tag, k1) =>
    let field := tag >>> 3
    let wt := tag &&& 0x07
    let rest := rem.drop k1
    if wt = 2 ∧ (field = 1 ∨ field = 2 ∨ field = 3) then
      match readLenDelim rest with
      | Except.error e => Except.error e
      | Except.ok (bs, k2) =>
        let s := decodeUtf8Ignore bs
        let out' :=
          if field = 1 then { out with vehicle_id := some s }
          else if field = 2 then { out with vehicle_label := some s }
          else { out with license_plate := some s }
        Except.ok (out', k1 + k2)
    else
      match skipFieldList rest wt with
      | (Except.error e, _) => Except.error e
      | (Except.ok _, k2) => Except.ok (out, k1 + k2)

/-- The `while not r.eof()` loop of `_parse_vehicle_descriptor`, with fuel. -/
def parseVehicleDescLoop : Nat → List Nat → VehicleDescOut → Except String VehicleDescOut
  | 0, _, _ => Except.error "fuel exhausted"
  | Nat.succ fuel, rem, out =>
    match rem with
    | [] => Except.ok out
    | _ :: _ =>
      match parseVehicleDescStep rem out with
      | Except.error e => Except.error e
      | Except.ok (out', k) => parseVehicleDescLoop fuel (rem.drop k) out'

/-- `_parse_vehicle_descriptor(data)`. -/
def parse_vehicle_descriptor (data : List Nat) : Except String VehicleDescOut :=
  parseVehicleDescLoop (data.length + 1) data ⟨none, none, none⟩

/-- Output dictionary of `_parse_position`; the four 32-bit floats are
modelled by their raw 4-byte little-endian payloads. -/
structure PositionOut where
  latitude : Option (List Nat)
  longitude : Option (List Nat)
  bearing : Option (List Nat)
  speed : Option (List Nat)
deriving Repr, DecidableEq

/-- One iteration of the `_parse_position` loop (`r.read_float()` is
`_require(4)` plus the 4-byte slice). -/
def parsePositionStep (rem : List Nat) (out : PositionOut) :
    Except String (PositionOut × Nat) :=
  match readVarintList rem 0 0 with
  | (Except.error e, _) => Except.error e
  | (Except.ok tag, k1) =>
    let field := tag >>> 3
    let wt := tag &&& 0x07
    let rest := rem.drop k1
    if wt = 5 ∧ (field = 1 ∨ field = 2 ∨ field = 3 ∨ field = 5) then
      match readBytesList rest 4 with
      | (Except.error e, _) => Except.error e
      | (Except.ok bs, k2) =>
        let out' :=
          if field = 1 then { out with latitude := some bs }
          else if field = 2 then { out with longitude := some bs }
          else if field = 3 then { out with bearing := some bs }
          else { out with speed := some bs }
        Except.ok (out', k1 + k2)
    else
      match skipFieldList rest wt with
      | (Except.error e, _) => Except.error e
      | (Except.ok _, k2) => Except.ok (out, k1 + k2)

/-- The `while not r.eof()` loop of `_parse_position`, with fuel. -/
def parsePositionLoop : Nat → List Nat → PositionOut → Except String PositionOut
  | 0, _, _ => Except.error "fuel exhausted"
  | Nat.succ fuel, rem, out =>
    match rem with
    | [] => Except.ok out
    | _ :: _ =>
      match parsePositionStep rem out with
      | Except.error e => Except.error e
      | Except.ok (out', k) => parsePositionLoop fuel (rem.drop k) out'

/-- `_parse_position(data)`. -/
def parse_position (data : List Nat) : Except String PositionOut :=
  parsePositionLoop (data.length + 1) data ⟨none, none, none, none⟩

/-- Output dictionary of `_parse_vehicle_position`: the flat union of the
trip, vehicle-descriptor and position keys plus the two
`VehiclePosition`-level keys, all initialized to `None`. -/
structure VehiclePositionOut where
  trip_id : Option String
  route_id : Option String
  direction_id : Option Nat
  start_time : Option String
  start_date : Option String
  vehicle_id : Option String
  vehicle_label : Option String
  license_plate : Option String
  latitude : Option (List Nat)
  longitude : Option (List Nat)
  bearing : Option (List Nat)
  speed : Option (List Nat)
  current_stop_id : Option String
  timestamp : Option Nat
deriving Repr, DecidableEq

/-- `out.update(_parse_trip_descriptor(sub))`: the sub-dictionary always
carries all five trip keys, so all five are overwritten. -/
def VehiclePositionOut.updateTrip (out : VehiclePositionOut) (t : TripOut) :
    VehiclePositionOut :=
  { out with trip_id := t.trip_id, route_id := t.route_id,
             direction_id := t.direction_id, start_time := t.start_time,
             start_date := t.start_date }

/-- `out.update(_parse_vehicle_descriptor(sub))`. -/
def VehiclePositionOut.updateVehicleDesc (out : VehiclePositionOut) (v : VehicleDescOut) :
    VehiclePositionOut :=
  { out with vehicle_id := v.vehicle_id, vehicle_label := v.vehicle_label,
             license_plate := v.license_plate }

/-- `out.update(_parse_position(sub))`. -/
def VehiclePositionOut.updatePosition (out : VehiclePositionOut) (p : PositionOut) :
    VehiclePositionOut :=
  { out with latitude := p.latitude, longitude := p.longitude,
             bearing := p.bearing, speed := p.speed }

/-- One iteration of the `_parse_vehicle_position` loop, dispatching in the
Python order: trip (1,2), vehicle (8,2), position (2,2), stop_id (7,2),
timestamp (5,0), else skip. -/
def parseVehiclePositionStep (rem : List Nat) (out : VehiclePositionOut) :
    Except String (VehiclePositionOut × Nat) :=
  match readVarintList rem 0 0 with
  | (Except.error e, _) => Except.error e
  | (Except.ok tag, k1) =>
    let field := tag >>> 3
    let wt := tag &&& 0x07
    let rest := rem.drop k1
    if field = 1 ∧ wt = 2 then
      match readLenDelim rest with
      | Except.error e => Except.error e
      | Except.ok (sub, k2) =>
        match parse_trip_descriptor sub with
        | Except.error e => Except.error e
        | Except.ok t => Except.ok (out.updateTrip t, k1 + k2)
    else if field = 8 ∧ wt = 2 then
      match readLenDelim rest with
      | Except.error e => Except.error e
      | Except.ok (sub, k2) =>
        match parse_vehicle_descriptor sub with
        | Except.error e => Except.error e
        | Except.ok v => Except.ok (out.updateVehicleDesc v, k1 + k2)
    else if field = 2 ∧ wt = 2 then
      match readLenDelim rest with
      | Except.error e => Except.error e
      | Except.ok (sub, k2) =>
        match parse_position sub with
        | Except.error e => Except.error e
        | Except.ok p => Except.ok (out.updatePosition p, k1 + k2)
    else if field = 7 ∧ wt = 2 then
      match readLenDelim rest with
      | Except.error e => Except.error e
      | Except.ok (bs, k2) =>
        Except.ok ({ out with current_stop_id := some (decodeUtf8Ignore bs) }, k1 + k2)
    else if field = 5 ∧ wt = 0 then
      match readVarintList rest 0 0 with
      | (Except.error e, _) => Except.error e
      | (Except.ok v, k2) => Except.ok ({ out with timestamp := some v }, k1 + k2)
    else
      match skipFieldList rest wt with
      | (Except.error e, _) => Except.error e
      | (Except.ok _, k2) => Except.ok (out, k1 + k2)

/-- The `while not r.eof()` loop of `_parse_vehicle_position`, with fuel. -/
def parseVehiclePositionLoop : Nat → List Nat → VehiclePositionOut →
    Except String VehiclePositionOut
  | 0, _, _ => Except.error "fuel exhausted"
  | Nat.succ fuel, rem, out =>
    match rem with
    | [] => Except.ok out
    | _ :: _ =>
      match parseVehiclePositionStep rem out with
      | Except.error e => Except.error e
      | Except.ok (out', k) => parseVehiclePositionLoop fuel (rem.drop k) out'

/-- The all-`None` initial `VehiclePosition` dictionary. -/
def emptyVehiclePosition : VehiclePositionOut :=
  ⟨none, none, none, none, none, none, none, none, none, none, none, none, none, none⟩

/-- `_parse_vehicle_position(data)`. -/
def parse_vehicle_position (data : List Nat) : Except String VehiclePositionOut :=
  parseVehiclePositionLoop (data.length + 1) data emptyVehiclePosition

/-- One iteration of the `_parse_feed_entity_vehicle` loop: only
`field == 4 and wt == 2` (the `vehicle` submessage) is decoded; every other
field goes through `skip_field(wt)`. -/
def parseFeedEntityStep (rem : List Nat) (vehicle : Option VehiclePositionOut) :
    Except String (Option VehiclePositionOut × Nat) :=
  match readVarintList rem 0 0 with
  | (Except.error e, _) => Except.error e
  | (Except.ok tag, k1) =>
    let field := tag >>> 3
    let wt := tag &&& 0x07
    let rest := rem.drop k1
    if field = 4 ∧ wt = 2 then
      match readLenDelim rest with
      | Except.error e => Except.error e
      | Except.ok (sub, k2) =>
        match parse_vehicle_position sub with
        | Except.error e => Except.error e
        | Except.ok vp => Except.ok (some vp, k1 + k2)
    else
      match skipFieldList rest wt with
      | (Except.error e, _) => Except.error e
      | (Except.ok _, k2) => Except.ok (vehicle, k1 + k2)

/-- The `while not r.eof()` loop of `_parse_feed_entity_vehicle`, with fuel. -/
def parseFeedEntityLoop : Nat → List Nat → Option VehiclePositionOut →
    Except String (Option VehiclePositionOut)
  | 0, _, _ => Except.error "fuel exhausted"
  | Nat.succ fuel, rem, vehicle =>
    match rem with
    | [] => Except.ok vehicle
    | _ :: _ =>
      match parseFeedEntityStep rem vehicle with
      | Except.error e => Except.error e
      | Except.ok (vehicle', k) => parseFeedEntityLoop fuel (rem.drop k) vehicle'

/-- `_parse_feed_entity_vehicle(data)`: `None` when no `vehicle` submessage
was seen. -/
def parse_feed_entity_vehicle (data : List Nat) :
    Except String (Option VehiclePositionOut) :=
  parseFeedEntityLoop (data.length + 1) data none

/-- The `while not r.eof()` loop of `_parse_feed_message_vehicles`.  The
Python `try`/`except ValueError` wraps *only* the tag read: a failing tag
read breaks out of the loop and the accumulated `vehicles` list is returned;
every other failure (header length and slice, entity length and slice, the
entity parse itself, `skip_field`) propagates. -/
def parseFeedLoop : Nat → List Nat → List VehiclePositionOut →
    Except String (List VehiclePositionOut)
  | 0, _, _ => Except.error "fuel exhausted"
  | Nat.succ fuel, rem, vehicles =>
    match rem with
    | [] => Except.ok vehicles
    | _ :: _ =>
      match readVarintList rem 0 0 with
      | (Except.error _, _) => Except.ok vehicles
      | (Except.ok tag, k1) =>
        let field := tag >>> 3
        let wt := tag &&& 0x07
        let rest := rem.drop k1
        if field = 1 ∧ wt = 2 then
          match readLenDelim rest with
          | Except.error e => Except.error e
          | Except.ok (_, k2) => parseFeedLoop fuel (rest.drop k2) vehicles
        else if field = 2 ∧ wt = 2 then
          match readLenDelim rest with
          | Except.error e => Except.error e
          | Except.ok (sub, k2) =>
              match parse_feed_entity_vehicle sub with
              | Except.error e => Except.error e
              | Except.ok none => parseFeedLoop fuel (rest.drop k2) vehicles
              | Except.ok (some v) =>
                parseFeedLoop fuel (rest.drop k2) (vehicles ++ [v])
        else
          match skipFieldList rest wt with
          | (Except.error e, _) => Except.error e
          | (Except.ok _, k2) => parseFeedLoop fuel (rest.drop k2) vehicles

/-- `_parse_feed_message_vehicles(data)`. -/
def parse_feed_message_vehicles (data : List Nat) :
    Except String (List VehiclePositionOut) :=
  parseFeedLoop (data.length + 1) data []

/-- Output record of the embedded script's `parse_with_bindings` (one entry
of the returned vehicle list).  `last_updated` (wall-clock `now`) is outside
the model; `position_timestamp` holds the epoch value accepted by
`datetime.fromtimestamp`, or `none`. -/
structure VehicleRecord where
  vehicle_id : Option String
  vehicle_label : Option String
  license_plate : Option String
  trip_id : Option String
  route_id : Option String
  direction_id : Option Nat
  start_time : Option String
  start_date : Option String
  latitude : Option (List Nat)
  longitude : Option (List Nat)
  bearing : Option (List Nat)
  speed : Option (List Nat)
  current_stop_id : Option String
  position_timestamp : Option Nat
deriving Repr, DecidableEq

/-- The per-vehicle dictionary built in the embedded `parse_with_bindings`
loop body: every key is copied from the raw `VehiclePosition` dictionary.
`datetime.fromtimestamp` has a platform-dependent acceptance range, so it
is a parameter `fromtimestamp : Nat → Option Nat`, `none` meaning the call
raised `OverflowError`/`OSError`/`ValueError` — which this script catches,
leaving `pos_dt = None`.  Hence
`position_timestamp = vp.timestamp.bind fromtimestamp`: absent timestamp or
failed conversion both give `none`.  The feed header is not available here:
it was skipped during parsing. -/
def normalizeVehicle (fromtimestamp : Nat → Option Nat) (vp : VehiclePositionOut) :
    VehicleRecord :=
  { vehicle_id := vp.vehicle_id
    vehicle_label := vp.vehicle_label
    license_plate := vp.license_plate
    trip_id := vp.trip_id
    route_id := vp.route_id
    direction_id := vp.direction_id
    start_time := vp.start_time
    start_date := vp.start_date
    latitude := vp.latitude
    longitude := vp.longitude
    bearing := vp.bearing
    speed := vp.speed
    current_stop_id := vp.current_stop_id
    position_timestamp := vp.timestamp.bind fromtimestamp }

/-- The embedded script's `parse_with_bindings(feed_data)`: parse the feed
message, then normalize each raw vehicle dictionary (the
`datetime.fromtimestamp` conversion is the first parameter, as in
`normalizeVehicle`). -/
def parse_with_bindings (fromtimestamp : Nat → Option Nat) (feed_data : List Nat) :
    Except String (List VehicleRecord) :=
  match parse_feed_message_vehicles feed_data with
  | Except.error e => Except.error e
  | Except.ok raw => Except.ok (raw.map (normalizeVehicle fromtimestamp))

end Embedded

namespace Bindings

/-- View of a decoded `TripDescriptor` as exposed by
`gtfs_realtime_pb2` accessors: proto string accessors are total and return
`""` when unset; `direction_id` carries explicit presence (`HasField`). -/
structure BTripDescriptor where
  trip_id : String
  route_id : String
  start_time : String
  start_date : String
  direction_id : Option Nat
deriving Repr, DecidableEq

/-- View of a decoded `VehicleDescriptor` (string accessors total). -/
structure BVehicleDescriptor where
  id : String
  label : String
  license_plate : String
deriving Repr, DecidableEq

/-- View of a decoded `Position`: `latitude`/`longitude` are always-present
accessors, `bearing`/`speed` carry `HasField` presence.  Float values are
opaque payloads (modelled as their bit patterns); they are only ever copied. -/
structure BPosition where
  latitude : Nat
  longitude : Nat
  bearing : Option Nat
  speed : Option Nat
deriving Repr, DecidableEq

/-- View of a decoded `VehiclePosition`: the three submessages carry
`HasField` presence, `stop_id` is a total string accessor, `timestamp`
carries `HasField` presence. -/
structure BVehiclePosition where
  trip : Option BTripDescriptor
  position : Option BPosition
  vehicle : Option BVehicleDescriptor
  stop_id : String
  timestamp : Option Nat
deriving Repr, DecidableEq

/-- View of a decoded `FeedEntity` (`HasField('vehicle')`). -/
structure BFeedEntity where
  vehicle : Option BVehiclePosition
deriving Repr, DecidableEq

/-- View of a decoded `FeedMessage`: header timestamp presence
(`feed.header.HasField('timestamp')`) plus the entity list. -/
structure BFeedMessage where
  header_timestamp : Option Nat
  entity : List BFeedEntity
deriving Repr, DecidableEq

/-- Python truthiness normalization `s or None` / `s if s else None` applied
to a proto string accessor: the empty string becomes `None`. -/
def strOrNone (s : String) : Option String := if s = "" then none else some s

/-- Normalized vehicle record shared by the two bindings-based notebook
parsers (`last_updated` wall-clock and the epoch-to-datetime conversions are
outside the model, timestamps stay as epoch seconds). -/
structure BRecord where
  vehicle_id : Option String
  vehicle_label : Option String
  license_plate : Option String
  trip_id : Option String
  route_id : Option String
  direction_id : Option Nat
  start_time : Option String
  start_date : Option String
  latitude : Option Nat
  longitude : Option Nat
  bearing : Option Nat
  speed : Option Nat
  current_stop_id : Option String
  position_timestamp : Option Nat
deriving Repr, DecidableEq

end Bindings

namespace ChatGPT

open Bindings

/-- The non-timestamp keys of the per-entity dictionary built by
`parse_with_bindings` in `Adelaide-Metro-Notebook-ChatGPT-Improvements.py`:
keys guarded by `HasField('vehicle'/'trip'/'position')` are absent (`none`)
when the submessage is absent; string fields are normalized with `or None`;
`position_timestamp` is the already-resolved value passed in. -/
def buildRecord (pos_ts : Option Nat) (vp : BVehiclePosition) : BRecord :=
  { vehicle_id := match vp.vehicle with
      | some vd => strOrNone vd.id
      | none => none
    vehicle_label := match vp.vehicle with
      | some vd => strOrNone vd.label
      | none => none
    license_plate := match vp.vehicle with
      | some vd => strOrNone vd.license_plate
      | none => none
    trip_id := match vp.trip with
      | some td => strOrNone td.trip_id
      | none => none
    route_id := match vp.trip with
      | some td => strOrNone td.route_id
      | none => none
    direction_id := match vp.trip with
      | some td => td.direction_id
      | none => none
    start_time := match vp.trip with
      | some td => strOrNone td.start_time
      | none => none
    start_date := match vp.trip with
      | some td => strOrNone td.start_date
      | none => none
    latitude := vp.position.map (fun p => p.latitude)
    longitude := vp.position.map (fun p => p.longitude)
    bearing := match vp.position with
      | some p => p.bearing
      | none => none
    speed := match vp.position with
      | some p => p.speed
      | none => none
    current_stop_id := strOrNone vp.stop_id
    position_timestamp := pos_ts }

/-- One entity body of the ChatGPT notebook's `parse_with_bindings` loop.
`dt.datetime.fromtimestamp` is the parameter `fromtimestamp`, `none`
meaning the call raised.  When the entity timestamp is present the call is
*unguarded*: a failed conversion raises out of the loop (`Except.error`)
and no record is produced; when absent, `position_timestamp` falls back to
the (already converted) feed-header timestamp. -/
def normalizeVehicle (fromtimestamp : Nat → Option Nat) (feed_header_ts : Option Nat)
    (vp : BVehiclePosition) : Except String BRecord :=
  match vp.timestamp with
  | some t =>
    match fromtimestamp t with
    | none => Except.error "fromtimestamp raised"
    | some d => Except.ok (buildRecord (some d) vp)
  | none => Except.ok (buildRecord feed_header_ts vp)

/-- The `for entity in feed.entity` loop: entities without a vehicle are
skipped, a raise from `normalizeVehicle` propagates and aborts the whole
parse. -/
def parseEntities (fromtimestamp : Nat → Option Nat) (feed_header_ts : Option Nat) :
    List BFeedEntity → Except String (List BRecord)
  | [] => Except.ok []
  | e :: rest =>
    match e.vehicle with
    | none => parseEntities fromtimestamp feed_header_ts rest
    | some vp =>
      match normalizeVehicle fromtimestamp feed_header_ts vp with
      | Except.error msg => Except.error msg
      | Except.ok r =>
        match parseEntities fromtimestamp feed_header_ts rest with
        | Except.error msg => Except.error msg
        | Except.ok rs => Except.ok (r :: rs)

/-- `parse_with_bindings(feed_data)` of the ChatGPT-improvements notebook.
The feed-header timestamp is converted under a `try` whose `except` leaves
it `None`, hence `feed.header_timestamp.bind fromtimestamp`. -/
def parse_with_bindings (fromtimestamp : Nat → Option Nat) (feed : BFeedMessage) :
    Except String (List BRecord) :=
  parseEntities fromtimestamp (feed.header_timestamp.bind fromtimestamp) feed.entity

end ChatGPT

namespace NotebookV5

open Bindings

/-- The non-timestamp keys of the per-entity dictionary built by
`parse_with_bindings` in `Adelaide-Metro-Notebook.py` (v5.13): same key
layout and truthiness normalization as the ChatGPT variant;
`position_timestamp` is the already-resolved value (`none` when the key was
never set). -/
def buildRecord (pos_ts : Option Nat) (vp : BVehiclePosition) : BRecord :=
  { vehicle_id := match vp.vehicle with
      | some vd => strOrNone vd.id
      | none => none
    vehicle_label := match vp.vehicle with
      | some vd => strOrNone vd.label
      | none => none
    license_plate := match vp.vehicle with
      | some vd => strOrNone vd.license_plate
      | none => none
    trip_id := match vp.trip with
      | some td => strOrNone td.trip_id
      | none => none
    route_id := match vp.trip with
      | some td => strOrNone td.route_id
      | none => none
    direction_id := match vp.trip with
      | some td => td.direction_id
      | none => none
    start_time := match vp.trip with
      | some td => strOrNone td.start_time
      | none => none
    start_date := match vp.trip with
      | some td => strOrNone td.start_date
      | none => none
    latitude := vp.position.map (fun p => p.latitude)
    longitude := vp.position.map (fun p => p.longitude)
    bearing := match vp.position with
      | some p => p.bearing
      | none => none
    speed := match vp.position with
      | some p => p.speed
      | none => none
    current_stop_id := strOrNone vp.stop_id
    position_timestamp := pos_ts }

/-- One entity body of the v5.13 notebook loop.  No feed-header fallback:
when the entity timestamp is absent the `position_timestamp` key is never
set (read back as `None`); when present, the *unguarded*
`datetime.fromtimestamp` call (the parameter, `none` meaning it raised)
either yields the converted value or raises out of the parse. -/
def normalizeVehicle (fromtimestamp : Nat → Option Nat) (vp : BVehiclePosition) :
    Except String BRecord :=
  match vp.timestamp with
  | some t =>
    match fromtimestamp t with
    | none => Except.error "fromtimestamp raised"
    | some d => Except.ok (buildRecord (some d) vp)
  | none => Except.ok (buildRecord none vp)

/-- The `for entity in feed.entity` loop of the v5.13 notebook. -/
def parseEntities (fromtimestamp : Nat → Option Nat) :
    List BFeedEntity → Except String (List BRecord)
  | [] => Except.ok []
  | e :: rest =>
    match e.vehicle with
    | none => parseEntities fromtimestamp rest
    | some vp =>
      match normalizeVehicle fromtimestamp vp with
      | Except.error msg => Except.error msg
      | Except.ok r =>
        match parseEntities fromtimestamp rest with
        | Except.error msg => Except.error msg
        | Except.ok rs => Except.ok (r :: rs)

/-- `parse_with_bindings(feed_data)` of the v5.13 notebook. -/
def parse_with_bindings (fromtimestamp : Nat → Option Nat) (feed : BFeedMessage) :
    Except String (List BRecord) :=
  parseEntities fromtimestamp feed.entity

end NotebookV5

namespace Embedded

/-- Success test for a decode result (keeps well-formedness predicates
decidable). -/
def decodeOk {α : Type} : Except String α → Bool
  | Except.ok _ => true
  | Except.error _ => false

/-- The TripDescriptor dictionary a successful sub-parse yields (the
all-`None` dictionary when the parse fails; well-formedness below rules the
failure case out). -/
def tripResult (sub : List Nat) : TripOut :=
  match parse_trip_descriptor sub with
  | Except.ok t => t
  | Except.error _ => ⟨none, none, none, none, none⟩

/-- The VehicleDescriptor dictionary a successful sub-parse yields. -/
def vehicleDescResult (sub : List Nat) : VehicleDescOut :=
  match parse_vehicle_descriptor sub with
  | Except.ok v => v
  | Except.error _ => ⟨none, none, none⟩

/-- The Position dictionary a successful sub-parse yields. -/
def positionResult (sub : List Nat) : PositionOut :=
  match parse_position sub with
  | Except.ok p => p
  | Except.error _ => ⟨none, none, none, none⟩

/-- The VehiclePosition dictionary a successful sub-parse yields. -/
def vehiclePositionResult (sub : List Nat) : VehiclePositionOut :=
  match parse_vehicle_position sub with
  | Except.ok vp => vp
  | Except.error _ => emptyVehiclePosition

/-- One stored-field occurrence at the `VehiclePosition` level: the trip
(1), position (2) and vehicle (8) submessages, the stop_id string (7) and
the timestamp varint (5). -/
inductive VPField
  | trip (sub : List Nat)
  | position (sub : List Nat)
  | stop_id (s : List Nat)
  | timestamp (v : Nat)
  | vehicle (sub : List Nat)
deriving Repr, DecidableEq

/-- The wire encoding of one `VehiclePosition` field occurrence. -/
def VPField.encode : VPField → List Nat
  | VPField.trip sub => 0x0A :: sub.length :: sub
  | VPField.position sub => 0x12 :: sub.length :: sub
  | VPField.stop_id s => 0x3A :: s.length :: s
  | VPField.timestamp v => [0x28, v]
  | VPField.vehicle sub => 0x42 :: sub.length :: sub

/-- Well-formedness of one occurrence (decidable, hence `Bool`): one-byte
length prefixes and varints, and nested submessages that decode. -/
def VPField.wf : VPField → Bool
  | VPField.trip sub => decide (sub.length < 128) && decodeOk (parse_trip_descriptor sub)
  | VPField.position sub => decide (sub.length < 128) && decodeOk (parse_position sub)
  | VPField.stop_id s => decide (s.length < 128)
  | VPField.timestamp v => decide (v < 128)
  | VPField.vehicle sub =>
      decide (sub.length < 128) && decodeOk (parse_vehicle_descriptor sub)

/-- The dictionary overwrite one occurrence performs, exactly as the
assembler's loop body does. -/
def VPField.apply : VPField → VehiclePositionOut → VehiclePositionOut
  | VPField.trip sub, out => out.updateTrip (tripResult sub)
  | VPField.position sub, out => out.updatePosition (positionResult sub)
  | VPField.stop_id s, out => { out with current_stop_id := some (decodeUtf8Ignore s) }
  | VPField.timestamp v, out => { out with timestamp := some v }
  | VPField.vehicle sub, out => out.updateVehicleDesc (vehicleDescResult sub)

/-- One stored-field occurrence of a `TripDescriptor`. -/
inductive TripField
  | trip_id (s : List Nat)
  | start_time (s : List Nat)
  | start_date (s : List Nat)
  | route_id (s : List Nat)
  | direction_id (v : Nat)
deriving Repr, DecidableEq

/-- The wire encoding of one `TripDescriptor` field occurrence. -/
def TripField.encode : TripField → List Nat
  | TripField.trip_id s => 0x0A :: s.length :: s
  | TripField.start_time s => 0x12 :: s.length :: s
  | TripField.start_date s => 0x1A :: s.length :: s
  | TripField.route_id s => 0x2A :: s.length :: s
  | TripField.direction_id v => [0x30, v]

/-- Well-formedness of one `TripDescriptor` occurrence. -/
def TripField.wf : TripField → Bool
  | TripField.trip_id s => decide (s.length < 128)
  | TripField.start_time s => decide (s.length < 128)
  | TripField.start_date s => decide (s.length < 128)
  | TripField.route_id s => decide (s.length < 128)
  | TripField.direction_id v => decide (v < 128)

/-- The dictionary overwrite one `TripDescriptor` occurrence performs. -/
def TripField.apply : TripField → TripOut → TripOut
  | TripField.trip_id s, out => { out with trip_id := some (decodeUtf8Ignore s) }
  | TripField.start_time s, out => { out with start_time := some (decodeUtf8Ignore s) }
  | TripField.start_date s, out => { out with start_date := some (decodeUtf8Ignore s) }
  | TripField.route_id s, out => { out with route_id := some (decodeUtf8Ignore s) }
  | TripField.direction_id v, out => { out with direction_id := some v }

/-- One stored-field occurrence of a `VehicleDescriptor`. -/
inductive VehicleDescField
  | id (s : List Nat)
  | label (s : List Nat)
  | license_plate (s : List Nat)
deriving Repr, DecidableEq

/-- The wire encoding of one `VehicleDescriptor` field occurrence. -/
def VehicleDescField.encode : VehicleDescField → List Nat
  | VehicleDescField.id s => 0x0A :: s.length :: s
  | VehicleDescField.label s => 0x12 :: s.length :: s
  | VehicleDescField.license_plate s => 0x1A :: s.length :: s

/-- Well-formedness of one `VehicleDescriptor` occurrence. -/
def VehicleDescField.wf : VehicleDescField → Bool
  | VehicleDescField.id s => decide (s.length < 128)
  | VehicleDescField.label s => decide (s.length < 128)
  | VehicleDescField.license_plate s => decide (s.length < 128)

/-- The dictionary overwrite one `VehicleDescriptor` occurrence performs. -/
def VehicleDescField.apply : VehicleDescField → VehicleDescOut → VehicleDescOut
  | VehicleDescField.id s, out => { out with vehicle_id := some (decodeUtf8Ignore s) }
  | VehicleDescField.label s, out =>
      { out with vehicle_label := some (decodeUtf8Ignore s) }
  | VehicleDescField.license_plate s, out =>
      { out with license_plate := some (decodeUtf8Ignore s) }

/-- One stored-field occurrence of a `Position` (4-byte fixed32 payloads). -/
inductive PositionField
  | latitude (p : List Nat)
  | longitude (p : List Nat)
  | bearing (p : List Nat)
  | speed (p : List Nat)
deriving Repr, DecidableEq

/-- The wire encoding of one `Position` field occurrence. -/
def PositionField.encode : PositionField → List Nat
  | PositionField.latitude p => 0x0D :: p
  | PositionField.longitude p => 0x15 :: p
  | PositionField.bearing p => 0x1D :: p
  | PositionField.speed p => 0x2D :: p

/-- Well-formedness: the fixed32 payload is exactly 4 bytes. -/
def PositionField.wf : PositionField → Bool
  | PositionField.latitude p => decide (p.length = 4)
  | PositionField.longitude p => decide (p.length = 4)
  | PositionField.bearing p => decide (p.length = 4)
  | PositionField.speed p => decide (p.length = 4)

/-- The dictionary overwrite one `Position` occurrence performs. -/
def PositionField.apply : PositionField → PositionOut → PositionOut
  | PositionField.latitude p, out => { out with latitude := some p }
  | PositionField.longitude p, out => { out with longitude := some p }
  | PositionField.bearing p, out => { out with bearing := some p }
  | PositionField.speed p, out => { out with speed := some p }

/-- One stored-field occurrence of a `FeedEntity`: its only decoded field,
the vehicle submessage (4). -/
inductive FeedEntityField
  | vehicle (sub : List Nat)
deriving Repr, DecidableEq

/-- The wire encoding of one `FeedEntity` vehicle occurrence. -/
def FeedEntityField.encode : FeedEntityField → List Nat
  | FeedEntityField.vehicle sub => 0x22 :: sub.length :: sub

/-- Well-formedness of one `FeedEntity` vehicle occurrence. -/
def FeedEntityField.wf : FeedEntityField → Bool
  | FeedEntityField.vehicle sub =>
      decide (sub.length < 128) && decodeOk (parse_vehicle_position sub)

/-- The state overwrite one `FeedEntity` vehicle occurrence performs: the
`vehicle` variable is replaced wholesale. -/
def FeedEntityField.apply : FeedEntityField → Option VehiclePositionOut →
    Option VehiclePositionOut
  | FeedEntityField.vehicle sub, _ => some (vehiclePositionResult sub)

end Embedded

/-! ## Lemmas about the primitive reads -/

theorem readVarintList_consumed_le (rem : List Nat) :
    ∀ res shift, (readVarintList rem res shift).2 ≤ rem.length := by
  induction rem with
  | nil => intro res shift; simp [readVarintList]
  | cons b rest ih =>
    intro res shift
    simp only [readVarintList]
    by_cases h0 : b &&& 0x80 = 0
    · simp [h0]
    · by_cases h1 : shift + 7 ≥ 64
      · simp [h0, h1]
      · simpa [h0, h1, List.length_cons, Nat.succ_le_succ_iff] using
          ih (res ||| ((b &&& 0x7F) <<< shift)) (shift + 7)

theorem readVarintList_consumed_bound (rem : List Nat) :
    ∀ res shift, shift ≤ 63 → 7 * (readVarintList rem res shift).2 ≤ 70 - shift := by
  induction rem with
  | nil => intro res shift h; simp [readVarintList]
  | cons b rest ih =>
    intro res shift h
    by_cases h0 : b &&& 0x80 = 0
    · simp [readVarintList, h0]; omega
    · by_cases h1 : shift + 7 ≥ 64
      · simp [readVarintList, h0, h1]; omega
      · have hrec := ih (res ||| ((b &&& 0x7F) <<< shift)) (shift + 7) (by omega)
        simp [readVarintList, h0, h1]
        omega

theorem readVarintList_ok_pos {rem : List Nat} {res shift v k : Nat}
    (h : readVarintList rem res shift = (Except.ok v, k)) : 1 ≤ k := by
  cases rem with
  | nil => simp [readVarintList] at h
  | cons b rest =>
    simp only [readVarintList] at h
    by_cases h0 : b &&& 0x80 = 0
    · simp [h0] at h; omega
    · by_cases h1 : shift + 7 ≥ 64
      · simp [h0, h1] at h
      · simp [h0, h1] at h; omega

theorem readVarintList_extend {v : Nat} (xs : List Nat) : ∀ (ys : List Nat) (res shift : Nat),
    (readVarintList xs res shift).1 = Except.ok v →
    readVarintList (xs ++ ys) res shift = readVarintList xs res shift := by
  induction xs with
  | nil => intro ys res shift h; simp [readVarintList] at h
  | cons b rest ih =>
    intro ys res shift h
    rw [List.cons_append]
    by_cases h0 : b &&& 0x80 = 0
    · simp [readVarintList, h0]
    · by_cases h1 : shift + 7 ≥ 64
      · simp [readVarintList, h0, h1] at h
      · simp only [readVarintList, if_neg h0, if_neg h1] at h ⊢
        rw [ih ys _ _ h]

theorem readVarintList_ok_lt (rem : List Nat) : ∀ (res shift v : Nat),
    shift ≤ 63 → res < 2 ^ shift →
    (readVarintList rem res shift).1 = Except.ok v → v < 2 ^ 70 := by
  induction rem with
  | nil => intro res shift v _ _ h; simp [readVarintList] at h
  | cons b rest ih =>
    intro res shift v hs hres h
    have hpay : b &&& 0x7F < 128 := lt_of_le_of_lt Nat.and_le_right (by norm_num)
    have hres' : res ||| ((b &&& 0x7F) <<< shift) < 2 ^ (shift + 7) := by
      have hle : res < 2 ^ (shift + 7) :=
        lt_of_lt_of_le hres (Nat.pow_le_pow_right (by norm_num) (by omega))
      have hsh : (b &&& 0x7F) <<< shift < 2 ^ (shift + 7) := by
        rw [Nat.shiftLeft_eq, Nat.pow_add, Nat.mul_comm (2 ^ shift) (2 ^ 7)]
        exact Nat.mul_lt_mul_of_lt_of_le hpay (le_refl _) (Nat.two_pow_pos shift)
      exact Nat.or_lt_two_pow hle hsh
    by_cases h0 : b &&& 0x80 = 0
    · simp [readVarintList, h0] at h
      have h70 : (2 : Nat) ^ (shift + 7) ≤ 2 ^ 70 :=
        Nat.pow_le_pow_right (by norm_num) (by omega)
      omega
    · by_cases h1 : shift + 7 ≥ 64
      · simp [readVarintList, h0, h1] at h
      · simp only [readVarintList, if_neg h0, if_neg h1] at h
        exact ih (res ||| ((b &&& 0x7F) <<< shift)) (shift + 7) v (by omega) hres' h

theorem readVarintList_truncated (rem : List Nat) : ∀ (res shift : Nat),
    (∀ b ∈ rem, b &&& 0x80 ≠ 0) → shift + 7 * rem.length ≤ 63 →
    (readVarintList rem res shift).1 = Except.error "Truncated varint" := by
  induction rem with
  | nil => intro res shift _ _; simp [readVarintList]
  | cons b rest ih =>
    intro res shift hcont hlen
    have h0 : ¬b &&& 0x80 = 0 := hcont b (List.mem_cons_self b rest)
    have h1 : ¬shift + 7 ≥ 64 := by simp [List.length_cons] at hlen; omega
    simp only [readVarintList, if_neg h0, if_neg h1]
    exact ih _ (shift + 7) (fun c hc => hcont c (List.mem_cons_of_mem b hc))
      (by simp only [List.length_cons] at hlen; omega)

theorem readVarintList_too_long (pre : List Nat) : ∀ (rest : List Nat) (res shift : Nat),
    (∀ b ∈ pre, b &&& 0x80 ≠ 0) → shift + 7 * pre.length = 70 → shift ≤ 63 →
    (readVarintList (pre ++ rest) res shift).1 = Except.error "Varint too long" := by
  induction pre with
  | nil => intro rest res shift _ hlen hs; simp at hlen; omega
  | cons b pre' ih =>
    intro rest res shift hcont hlen hs
    have h0 : ¬b &&& 0x80 = 0 := hcont b (List.mem_cons_self b pre')
    by_cases h1 : shift + 7 ≥ 64
    · simp [readVarintList, if_neg h0, h1]
    · simp only [List.cons_append, readVarintList, if_neg h0, if_neg h1]
      exact ih rest _ (shift + 7) (fun c hc => hcont c (List.mem_cons_of_mem b hc))
        (by simp [List.length_cons] at hlen; omega) (by omega)

theorem readBytesList_consumed_le (rem : List Nat) (count : Nat) :
    (readBytesList rem count).2 ≤ rem.length := by
  by_cases h : count > rem.length
  · simp [readBytesList, h]
  · simp [readBytesList, h]; omega

theorem readBytesList_ok {rem : List Nat} {count : Nat} {bs : List Nat} {k : Nat}
    (h : readBytesList rem count = (Except.ok bs, k)) :
    k = count ∧ count ≤ rem.length ∧ bs = rem.take count := by
  by_cases hc : count > rem.length
  · simp [readBytesList, hc] at h
  · simp [readBytesList, hc] at h
    exact ⟨h.2.symm, by omega, h.1.symm⟩

theorem readBytesList_extend {xs : List Nat} {count : Nat} (h : count ≤ xs.length)
    (ys : List Nat) : readBytesList (xs ++ ys) count = readBytesList xs count := by
  have h2 : ¬count > (xs ++ ys).length := by rw [List.length_append]; omega
  unfold readBytesList
  rw [if_neg (by omega : ¬count > xs.length), if_neg h2,
    List.take_append_of_le_length h]

theorem readLenDelim_ok {rem : List Nat} {bs : List Nat} {k : Nat}
    (h : readLenDelim rem = Except.ok (bs, k)) :
    (1 ≤ k ∧ k ≤ rem.length) ∧
      ∃ len k1, readVarintList rem 0 0 = (Except.ok len, k1) ∧
        readBytesList (rem.drop k1) len = (Except.ok bs, len) ∧ k = k1 + len := by
  unfold readLenDelim at h
  rcases hp : readVarintList rem 0 0 with ⟨r1, k1⟩
  rw [hp] at h
  cases r1 with
  | error e => simp at h
  | ok len =>
    simp only at h
    rcases hq : readBytesList (rem.drop k1) len with ⟨r2, k2⟩
    rw [hq] at h
    cases r2 with
    | error e => simp at h
    | ok bs2 =>
      simp only [Except.ok.injEq, Prod.mk.injEq] at h
      obtain ⟨hbs, hk⟩ := h
      obtain ⟨hk2c, hlen, hbs2⟩ := readBytesList_ok hq
      have hk1 : 1 ≤ k1 := readVarintList_ok_pos hp
      have hk1le : k1 ≤ rem.length := by
        have := readVarintList_consumed_le rem 0 0; rw [hp] at this; exact this
      have hdl : (rem.drop k1).length = rem.length - k1 := List.length_drop k1 rem
      refine ⟨⟨by omega, by omega⟩, len, k1, rfl, ?_, by omega⟩
      rw [hq, hbs, hk2c]

theorem readLenDelim_extend {xs : List Nat} {bs : List Nat} {k : Nat}
    (h : readLenDelim xs = Except.ok (bs, k)) (ys : List Nat) :
    readLenDelim (xs ++ ys) = Except.ok (bs, k) := by
  obtain ⟨-, len, k1, hp, hq, hk⟩ := readLenDelim_ok h
  have hk1le : k1 ≤ xs.length := by
    have := readVarintList_consumed_le xs 0 0; rw [hp] at this; exact this
  have hlen : len ≤ (xs.drop k1).length := (readBytesList_ok hq).2.1
  unfold readLenDelim
  rw [readVarintList_extend xs ys 0 0 (by rw [hp]), hp]
  simp only
  rw [List.drop_append_of_le_length hk1le, readBytesList_extend hlen ys, hq]
  simp only [Except.ok.injEq, Prod.mk.injEq]
  exact ⟨by trivial, by omega⟩

theorem skipFieldList_consumed_le (rem : List Nat) (wt : Nat) :
    (skipFieldList rem wt).2 ≤ rem.length := by
  unfold skipFieldList
  by_cases w0 : wt = 0
  · rw [if_pos w0]
    rcases hp : readVarintList rem 0 0 with ⟨r1, k1⟩
    have hc := readVarintList_consumed_le rem 0 0
    rw [hp] at hc
    cases r1 <;> simpa using hc
  · rw [if_neg w0]
    by_cases w1 : wt = 1
    · rw [if_pos w1]
      rcases hp : readBytesList rem 8 with ⟨r1, k1⟩
      have hc := readBytesList_consumed_le rem 8
      rw [hp] at hc
      cases r1 <;> simpa using hc
    · rw [if_neg w1]
      by_cases w2 : wt = 2
      · rw [if_pos w2]
        rcases hp : readVarintList rem 0 0 with ⟨r1, k1⟩
        have hc := readVarintList_consumed_le rem 0 0
        rw [hp] at hc
        cases r1 with
        | error e => simpa using hc
        | ok len =>
          simp only
          rcases hq : readBytesList (rem.drop k1) len with ⟨r2, k2⟩
          have hc2 := readBytesList_consumed_le (rem.drop k1) len
          rw [hq] at hc2
          rw [List.length_drop] at hc2
          cases r2 <;> simp <;> omega
      · rw [if_neg w2]
        by_cases w5 : wt = 5
        · rw [if_pos w5]
          rcases hp : readBytesList rem 4 with ⟨r1, k1⟩
          have hc := readBytesList_consumed_le rem 4
          rw [hp] at hc
          cases r1 <;> simpa using hc
        · rw [if_neg w5]; simp

theorem skipFieldList_extend {xs : List Nat} {wt k : Nat}
    (h : skipFieldList xs wt = (Except.ok (), k)) (ys : List Nat) :
    skipFieldList (xs ++ ys) wt = (Except.ok (), k) := by
  unfold skipFieldList at h ⊢
  by_cases w0 : wt = 0
  · rw [if_pos w0] at h ⊢
    rcases hp : readVarintList xs 0 0 with ⟨r1, k1⟩
    rw [hp] at h
    cases r1 with
    | error e => simp at h
    | ok v =>
      simp only [Prod.mk.injEq] at h
      rw [readVarintList_extend xs ys 0 0 (by rw [hp]), hp]
      simp [h.2]
  · rw [if_neg w0] at h ⊢
    by_cases w1 : wt = 1
    · rw [if_pos w1] at h ⊢
      rcases hp : readBytesList xs 8 with ⟨r1, k1⟩
      rw [hp] at h
      cases r1 with
      | error e => simp at h
      | ok bs =>
        simp only [Prod.mk.injEq] at h
        have h8 : (8 : Nat) ≤ xs.length := (readBytesList_ok hp).2.1
        rw [readBytesList_extend h8 ys, hp]
        simp [h.2]
    · rw [if_neg w1] at h ⊢
      by_cases w2 : wt = 2
      · rw [if_pos w2] at h ⊢
        rcases hp : readVarintList xs 0 0 with ⟨r1, k1⟩
        rw [hp] at h
        cases r1 with
        | error e => simp at h
        | ok len =>
          simp only at h
          rcases hq : readBytesList (xs.drop k1) len with ⟨r2, k2⟩
          rw [hq] at h
          cases r2 with
          | error e => simp at h
          | ok bs =>
            simp only [Prod.mk.injEq] at h
            have hk1le : k1 ≤ xs.length := by
              have := readVarintList_consumed_le xs 0 0; rw [hp] at this; exact this
            have hlen : len ≤ (xs.drop k1).length := (readBytesList_ok hq).2.1
            rw [readVarintList_extend xs ys 0 0 (by rw [hp]), hp]
            simp only
            rw [List.drop_append_of_le_length hk1le, readBytesList_extend hlen ys, hq]
            simp [h.2]
      · rw [if_neg w2] at h ⊢
        by_cases w5 : wt = 5
        · rw [if_pos w5] at h ⊢
          rcases hp : readBytesList xs 4 with ⟨r1, k1⟩
          rw [hp] at h
          cases r1 with
          | error e => simp at h
          | ok bs =>
            simp only [Prod.mk.injEq] at h
            have h4 : (4 : Nat) ≤ xs.length := (readBytesList_ok hp).2.1
            rw [readBytesList_extend h4 ys, hp]
            simp [h.2]
        · rw [if_neg w5] at h ⊢
          simp at h

namespace Embedded

theorem parseVehiclePositionStep_consumed {rem : List Nat} {out out' : VehiclePositionOut}
    {k : Nat} (h : parseVehiclePositionStep rem out = Except.ok (out', k)) :
    1 ≤ k ∧ k ≤ rem.length := by
  unfold parseVehiclePositionStep at h
  rcases hp : readVarintList rem 0 0 with ⟨r1, k1⟩
  rw [hp] at h
  cases r1 with
  | error e => simp at h
  | ok tag =>
    simp only at h
    have hk1 : 1 ≤ k1 := readVarintList_ok_pos hp
    have hk1le : k1 ≤ rem.length := by
      have := readVarintList_consumed_le rem 0 0; rw [hp] at this; exact this
    have hdl : (rem.drop k1).length = rem.length - k1 := List.length_drop k1 rem
    by_cases c1 : tag >>> 3 = 1 ∧ tag &&& 0x07 = 2
    · rw [if_pos c1] at h
      rcases hld : readLenDelim (rem.drop k1) with e | ⟨sub, k2⟩
      · rw [hld] at h; simp at h
      · rw [hld] at h
        simp only at h
        obtain ⟨⟨hk2, hk2le⟩, -⟩ := readLenDelim_ok hld
        rcases ht : parse_trip_descriptor sub with e | t <;> rw [ht] at h
        · simp at h
        · simp only [Except.ok.injEq, Prod.mk.injEq] at h
          omega
    · rw [if_neg c1] at h
      by_cases c8 : tag >>> 3 = 8 ∧ tag &&& 0x07 = 2
      · rw [if_pos c8] at h
        rcases hld : readLenDelim (rem.drop k1) with e | ⟨sub, k2⟩
        · rw [hld] at h; simp at h
        · rw [hld] at h
          simp only at h
          obtain ⟨⟨hk2, hk2le⟩, -⟩ := readLenDelim_ok hld
          rcases ht : parse_vehicle_descriptor sub with e | v <;> rw [ht] at h
          · simp at h
          · simp only [Except.ok.injEq, Prod.mk.injEq] at h
            omega
      · rw [if_neg c8] at h
        by_cases c2 : tag >>> 3 = 2 ∧ tag &&& 0x07 = 2
        · rw [if_pos c2] at h
          rcases hld : readLenDelim (rem.drop k1) with e | ⟨sub, k2⟩
          · rw [hld] at h; simp at h
          · rw [hld] at h
            simp only at h
            obtain ⟨⟨hk2, hk2le⟩, -⟩ := readLenDelim_ok hld
            rcases ht : parse_position sub with e | p <;> rw [ht] at h
            · simp at h
            · simp only [Except.ok.injEq, Prod.mk.injEq] at h
              omega
        · rw [if_neg c2] at h
          by_cases c7 : tag >>> 3 = 7 ∧ tag &&& 0x07 = 2
          · rw [if_pos c7] at h
            rcases hld : readLenDelim (rem.drop k1) with e | ⟨sub, k2⟩
            · rw [hld] at h; simp at h
            · rw [hld] at h
              simp only at h
              obtain ⟨⟨hk2, hk2le⟩, -⟩ := readLenDelim_ok hld
              simp only [Except.ok.injEq, Prod.mk.injEq] at h
              omega
          · rw [if_neg c7] at h
            by_cases c5 : tag >>> 3 = 5 ∧ tag &&& 0x07 = 0
            · rw [if_pos c5] at h
              rcases hv : readVarintList (rem.drop k1) 0 0 with ⟨r2, k2⟩
              rw [hv] at h
              cases r2 with
              | error e => simp at h
              | ok v =>
                have hk2le : k2 ≤ (rem.drop k1).length := by
                  have := readVarintList_consumed_le (rem.drop k1) 0 0
                  rw [hv] at this; exact this
                simp only at h
                simp only [Except.ok.injEq, Prod.mk.injEq] at h
                omega
            · rw [if_neg c5] at h
              rcases hs : skipFieldList (rem.drop k1) (tag &&& 0x07) with ⟨r2, k2⟩
              rw [hs] at h
              cases r2 with
              | error e => simp at h
              | ok u =>
                have hk2le : k2 ≤ (rem.drop k1).length := by
                  have := skipFieldList_consumed_le (rem.drop k1) (tag &&& 0x07)
                  rw [hs] at this; exact this
                simp only at h
                simp only [Except.ok.injEq, Prod.mk.injEq] at h
                omega

end Embedded

namespace Embedded

theorem parseVehiclePositionStep_extend {rem : List Nat} {out out' : VehiclePositionOut}
    {k : Nat} (h : parseVehiclePositionStep rem out = Except.ok (out', k)) (ys : List Nat) :
    parseVehiclePositionStep (rem ++ ys) out = Except.ok (out', k) := by
  unfold parseVehiclePositionStep at h ⊢
  rcases hp : readVarintList rem 0 0 with ⟨r1, k1⟩
  rw [hp] at h
  cases r1 with
  | error e => simp at h
  | ok tag =>
    simp only at h
    have hk1le : k1 ≤ rem.length := by
      have := readVarintList_consumed_le rem 0 0; rw [hp] at this; exact this
    rw [readVarintList_extend rem ys 0 0 (by rw [hp]), hp]
    simp only
    rw [List.drop_append_of_le_length hk1le]
    by_cases c1 : tag >>> 3 = 1 ∧ tag &&& 0x07 = 2
    · rw [if_pos c1] at h ⊢
      rcases hld : readLenDelim (rem.drop k1) with e | ⟨sub, k2⟩
      · rw [hld] at h; simp at h
      · rw [hld] at h
        simp only at h
        rw [readLenDelim_extend hld ys]
        simp only
        exact h
    · rw [if_neg c1] at h ⊢
      by_cases c8 : tag >>> 3 = 8 ∧ tag &&& 0x07 = 2
      · rw [if_pos c8] at h ⊢
        rcases hld : readLenDelim (rem.drop k1) with e | ⟨sub, k2⟩
        · rw [hld] at h; simp at h
        · rw [hld] at h
          simp only at h
          rw [readLenDelim_extend hld ys]
          simp only
          exact h
      · rw [if_neg c8] at h ⊢
        by_cases c2 : tag >>> 3 = 2 ∧ tag &&& 0x07 = 2
        · rw [if_pos c2] at h ⊢
          rcases hld : readLenDelim (rem.drop k1) with e | ⟨sub, k2⟩
          · rw [hld] at h; simp at h
          · rw [hld] at h
            simp only at h
            rw [readLenDelim_extend hld ys]
            simp only
            exact h
        · rw [if_neg c2] at h ⊢
          by_cases c7 : tag >>> 3 = 7 ∧ tag &&& 0x07 = 2
          · rw [if_pos c7] at h ⊢
            rcases hld : readLenDelim (rem.drop k1) with e | ⟨sub, k2⟩
            · rw [hld] at h; simp at h
            · rw [hld] at h
              simp only at h
              rw [readLenDelim_extend hld ys]
              simp only
              exact h
          · rw [if_neg c7] at h ⊢
            by_cases c5 : tag >>> 3 = 5 ∧ tag &&& 0x07 = 0
            · rw [if_pos c5] at h ⊢
              rcases hv : readVarintList (rem.drop k1) 0 0 with ⟨r2, k2⟩
              rw [hv] at h
              cases r2 with
              | error e => simp at h
              | ok v =>
                rw [readVarintList_extend (rem.drop k1) ys 0 0 (by rw [hv]), hv]
                simp only at h ⊢
                exact h
            · rw [if_neg c5] at h ⊢
              rcases hs : skipFieldList (rem.drop k1) (tag &&& 0x07) with ⟨r2, k2⟩
              rw [hs] at h
              cases r2 with
              | error e => simp at h
              | ok u =>
                cases u
                rw [skipFieldList_extend hs ys]
                simp only at h ⊢
                exact h

end Embedded

namespace Embedded

theorem parseVehiclePositionLoop_fuel (f : Nat) :
    ∀ (g : Nat) (rem : List Nat) (out : VehiclePositionOut),
    rem.length < f → rem.length < g →
    parseVehiclePositionLoop f rem out = parseVehiclePositionLoop g rem out := by
  induction f with
  | zero => intro g rem out hf _; omega
  | succ f ih =>
    intro g rem out hf hg
    cases g with
    | zero => omega
    | succ g =>
      cases rem with
      | nil => simp [parseVehiclePositionLoop]
      | cons b t =>
        simp only [parseVehiclePositionLoop]
        rcases hs : parseVehiclePositionStep (b :: t) out with e | ⟨out', k⟩
        · simp
        · simp only
          obtain ⟨hk1, hkle⟩ := parseVehiclePositionStep_consumed hs
          have hlen : ((b :: t).drop k).length = (b :: t).length - k :=
            List.length_drop k (b :: t)
          simp only [List.length_cons] at hf hg hkle hlen
          exact ih g ((b :: t).drop k) out' (by omega) (by omega)

theorem parseVehiclePositionLoop_append (rem2 : List Nat) :
    ∀ (f1 : Nat) (rem1 : List Nat) (out out1 : VehiclePositionOut),
    parseVehiclePositionLoop f1 rem1 out = Except.ok out1 →
    parseVehiclePositionLoop ((rem1 ++ rem2).length + 1) (rem1 ++ rem2) out =
      parseVehiclePositionLoop (rem2.length + 1) rem2 out1 := by
  intro f1
  induction f1 with
  | zero => intro rem1 out out1 h; simp [parseVehiclePositionLoop] at h
  | succ f ih =>
    intro rem1 out out1 h
    cases rem1 with
    | nil =>
      simp only [parseVehiclePositionLoop] at h
      simp only [Except.ok.injEq] at h
      subst h
      simp
    | cons b t =>
      simp only [parseVehiclePositionLoop] at h
      rcases hs : parseVehiclePositionStep (b :: t) out with e | ⟨out', k⟩
      · rw [hs] at h; simp at h
      · rw [hs] at h
        simp only at h
        obtain ⟨hk1, hkle⟩ := parseVehiclePositionStep_consumed hs
        have hstep := parseVehiclePositionStep_extend hs rem2
        rw [List.cons_append] at hstep
        rw [List.cons_append]
        conv_lhs => rw [parseVehiclePositionLoop]
        rw [hstep]
        simp only
        have hdk : (b :: (t ++ rem2)).drop k = (b :: t).drop k ++ rem2 := by
          rw [← List.cons_append, List.drop_append_of_le_length hkle]
        rw [hdk]
        have hmain := ih ((b :: t).drop k) out' out1 h
        rw [← hmain]
        apply parseVehiclePositionLoop_fuel
        · have h1 : ((b :: t).drop k).length = (b :: t).length - k :=
            List.length_drop k (b :: t)
          simp only [List.length_cons, List.length_append, List.length_drop] at h1 hkle ⊢
          omega
        · simp only [List.length_cons, List.length_append, List.length_drop]
          omega

end Embedded

/-- A byte below `0x80` has no continuation bit. -/
theorem byte_no_cont {v : Nat} (h : v < 128) : v &&& 0x80 = 0 := by
  have : (0x80 : Nat) = 2 ^ 7 := by norm_num
  rw [this, Nat.and_two_pow, Nat.testBit_lt_two_pow (by norm_num at h ⊢; omega)]
  simp

/-- A byte below `0x80` is its own 7-bit payload. -/
theorem byte_low {v : Nat} (h : v < 128) : v &&& 0x7F = v := by
  have : (0x7F : Nat) = 2 ^ 7 - 1 := by norm_num
  rw [this, Nat.and_pow_two_sub_one_eq_mod]
  omega

/-- A single byte below `0x80` decodes as a one-byte varint with its own
value. -/
theorem readVarintList_single {v : Nat} (h : v < 128) (rest : List Nat) :
    readVarintList (v :: rest) 0 0 = (Except.ok v, 1) := by
  simp [readVarintList, byte_no_cont h, byte_low h]

namespace Embedded

/-- A length prefix below `0x80` followed by exactly that many bytes is
read by `readLenDelim` as the whole remaining payload. -/
theorem readLenDelim_exact {content : List Nat} (h : content.length < 128) :
    readLenDelim (content.length :: content) = Except.ok (content, 1 + content.length) := by
  unfold readLenDelim
  rw [readVarintList_single h]
  simp [readBytesList]

/-- Evaluating `_parse_trip_descriptor` on a buffer holding exactly one
`trip_id` string field (field 1, wire type 2) of arbitrary content. -/
theorem parse_trip_descriptor_single_string {content : List Nat} (h : content.length < 128) :
    parse_trip_descriptor (0x0A :: content.length :: content) =
      Except.ok ⟨some (decodeUtf8Ignore content), none, none, none, none⟩ := by
  have hA : (0x0A : Nat) < 128 := by norm_num
  have hstep : parseTripStep (0x0A :: content.length :: content)
      ⟨none, none, none, none, none⟩ =
      Except.ok (⟨some (decodeUtf8Ignore content), none, none, none, none⟩,
        1 + (1 + content.length)) := by
    unfold parseTripStep
    rw [readVarintList_single hA]
    simp [readLenDelim_exact h, (by decide : (10 : Nat) &&& 7 = 2),
      (by decide : (10 : Nat) >>> 3 = 1)]
  have hdrop : (0x0A :: content.length :: content).drop (1 + (1 + content.length)) = [] := by
    have he : 1 + (1 + content.length) = (0x0A :: content.length :: content).length := by
      simp [List.length_cons]; omega
    rw [he, List.drop_length]
  unfold parse_trip_descriptor
  conv_lhs => rw [parseTripLoop]
  rw [hstep]
  simp [parseTripLoop, hdrop, List.length_cons]

end Embedded

/-- `skip_field(2)` on a length-prefixed payload consumes the prefix byte
plus the payload. -/
theorem skipFieldList_lenfield {sub : List Nat} (h : sub.length < 128) :
    skipFieldList (sub.length :: sub) 2 = (Except.ok (), 1 + sub.length) := by
  unfold skipFieldList
  rw [readVarintList_single h]
  simp [readBytesList]

namespace Embedded

/-- A FeedEntity buffer holding exactly one `vehicle` submessage (field 4,
wire type 2): the submessage is decoded by `_parse_vehicle_position`, and
its failure propagates. -/
theorem parse_feed_entity_field4 {sub : List Nat} (h : sub.length < 128) :
    parse_feed_entity_vehicle (0x22 :: sub.length :: sub) =
      (parse_vehicle_position sub).map some := by
  have hA : (0x22 : Nat) < 128 := by norm_num
  have hdrop : (0x22 :: sub.length :: sub).drop (1 + (1 + sub.length)) = [] := by
    have he : 1 + (1 + sub.length) = (0x22 :: sub.length :: sub).length := by
      simp [List.length_cons]; omega
    rw [he, List.drop_length]
  rcases hvp : parse_vehicle_position sub with e | vp
  · have hstep : parseFeedEntityStep (0x22 :: sub.length :: sub) none = Except.error e := by
      unfold parseFeedEntityStep
      rw [readVarintList_single hA]
      simp [readLenDelim_exact h, hvp, (by decide : (0x22 : Nat) >>> 3 = 4),
        (by decide : (0x22 : Nat) &&& 7 = 2)]
    unfold parse_feed_entity_vehicle
    conv_lhs => rw [parseFeedEntityLoop]
    rw [hstep]
    simp [Except.map]
  · have hstep : parseFeedEntityStep (0x22 :: sub.length :: sub) none =
        Except.ok (some vp, 1 + (1 + sub.length)) := by
      unfold parseFeedEntityStep
      rw [readVarintList_single hA]
      simp [readLenDelim_exact h, hvp, (by decide : (0x22 : Nat) >>> 3 = 4),
        (by decide : (0x22 : Nat) &&& 7 = 2)]
    unfold parse_feed_entity_vehicle
    conv_lhs => rw [parseFeedEntityLoop]
    rw [hstep]
    simp [parseFeedEntityLoop, hdrop, List.length_cons, Except.map]

/-- A FeedEntity buffer holding exactly one length-delimited field with a
field number other than 4 (for example 1 = id, 3 = trip_update, 5 = alert):
the field is skipped via `skip_field` and no vehicle is produced, whatever
the payload holds. -/
theorem parse_feed_entity_skip_lenfield {t : Nat} (ht : t < 128) (hwt : t &&& 7 = 2)
    (hfield : ¬t >>> 3 = 4) {sub : List Nat} (h : sub.length < 128) :
    parse_feed_entity_vehicle (t :: sub.length :: sub) = Except.ok none := by
  have hdrop : (t :: sub.length :: sub).drop (1 + (1 + sub.length)) = [] := by
    have he : 1 + (1 + sub.length) = (t :: sub.length :: sub).length := by
      simp [List.length_cons]; omega
    rw [he, List.drop_length]
  have hstep : parseFeedEntityStep (t :: sub.length :: sub) none =
      Except.ok (none, 1 + (1 + sub.length)) := by
    unfold parseFeedEntityStep
    rw [readVarintList_single ht]
    simp [hwt, hfield, skipFieldList_lenfield h]
  unfold parse_feed_entity_vehicle
  conv_lhs => rw [parseFeedEntityLoop]
  rw [hstep]
  simp [parseFeedEntityLoop, hdrop, List.length_cons]

/-- A FeedEntity buffer holding exactly one varint field with a field number
other than 4 (for example 2 = is_deleted): skipped, no vehicle produced. -/
theorem parse_feed_entity_skip_varint {t v : Nat} (ht : t < 128) (hwt : t &&& 7 = 0)
    (hfield : ¬t >>> 3 = 4) (hv : v < 128) :
    parse_feed_entity_vehicle [t, v] = Except.ok none := by
  have hskip : skipFieldList [v] 0 = (Except.ok (), 1) := by
    unfold skipFieldList
    simp [readVarintList_single hv]
  have hstep : parseFeedEntityStep [t, v] none = Except.ok (none, 1 + 1) := by
    unfold parseFeedEntityStep
    rw [readVarintList_single ht]
    simp [hwt, hfield, hskip]
  unfold parse_feed_entity_vehicle
  conv_lhs => rw [parseFeedEntityLoop]
  rw [hstep]
  simp [parseFeedEntityLoop]

end Embedded

namespace Embedded

/-- Running the `_parse_vehicle_position` loop on a single timestamp field
(field 5, wire type 0) from any intermediate dictionary overwrites just the
timestamp. -/
theorem parseVehiclePositionLoop_timestamp {v : Nat} (hv : v < 128)
    (out : VehiclePositionOut) :
    parseVehiclePositionLoop (([0x28, v] : List Nat).length + 1) [0x28, v] out =
      Except.ok { out with timestamp := some v } := by
  have hstep : parseVehiclePositionStep [0x28, v] out =
      Except.ok ({ out with timestamp := some v }, 1 + 1) := by
    unfold parseVehiclePositionStep
    rw [readVarintList_single (by norm_num : (0x28 : Nat) < 128)]
    simp [readVarintList_single hv, (by decide : (0x28 : Nat) >>> 3 = 5),
      (by decide : (0x28 : Nat) &&& 7 = 0)]
  conv_lhs => rw [parseVehiclePositionLoop]
  rw [hstep]
  simp [parseVehiclePositionLoop]

/-- Running the `_parse_vehicle_position` loop on a single trip submessage
(field 1, wire type 2) from any intermediate dictionary overwrites all five
trip keys with the submessage's parse. -/
theorem parseVehiclePositionLoop_trip {sub : List Nat} (h : sub.length < 128)
    {t : TripOut} (ht : parse_trip_descriptor sub = Except.ok t)
    (out : VehiclePositionOut) :
    parseVehiclePositionLoop ((0x0A :: sub.length :: sub).length + 1)
      (0x0A :: sub.length :: sub) out = Except.ok (out.updateTrip t) := by
  have hdrop : (0x0A :: sub.length :: sub).drop (1 + (1 + sub.length)) = [] := by
    have he : 1 + (1 + sub.length) = (0x0A :: sub.length :: sub).length := by
      simp [List.length_cons]; omega
    rw [he, List.drop_length]
  have hstep : parseVehiclePositionStep (0x0A :: sub.length :: sub) out =
      Except.ok (out.updateTrip t, 1 + (1 + sub.length)) := by
    unfold parseVehiclePositionStep
    rw [readVarintList_single (by norm_num : (0x0A : Nat) < 128)]
    simp [readLenDelim_exact h, ht, (by decide : (10 : Nat) >>> 3 = 1),
      (by decide : (10 : Nat) &&& 7 = 2)]
  conv_lhs => rw [parseVehiclePositionLoop]
  rw [hstep]
  simp [parseVehiclePositionLoop, hdrop, List.length_cons]

end Embedded

/-! ## Field-sequence characterization of the assemblers (C6) -/

/-- `readBytesList` on an exact-length payload followed by arbitrary
trailing bytes consumes the payload only. -/
theorem readBytesList_exact_trail (p ys : List Nat) :
    readBytesList (p ++ ys) p.length = (Except.ok p, p.length) := by
  rw [readBytesList_extend (le_refl p.length) ys]
  simp [readBytesList]

/-- `readBytesList _ 4` on a 4-byte payload followed by arbitrary trailing
bytes. -/
theorem readBytesList_four_trail {p : List Nat} (hp : p.length = 4) (ys : List Nat) :
    readBytesList (p ++ ys) 4 = (Except.ok p, 4) := by
  have h := readBytesList_exact_trail p ys
  rw [hp] at h
  exact h

/-- Dropping a tag byte, a length byte and the payload lands exactly on the
trailing bytes. -/
theorem drop_tag_len_payload (a b : Nat) (l ys : List Nat) :
    (a :: b :: (l ++ ys)).drop (1 + (1 + l.length)) = ys := by
  have h : 1 + (1 + l.length) = l.length + 2 := by omega
  rw [h]
  show (l ++ ys).drop l.length = ys
  exact List.drop_left l ys

/-- Dropping a tag byte and a one-byte varint payload. -/
theorem drop_two_simple (a b : Nat) (ys : List Nat) :
    (a :: b :: ys).drop (1 + 1) = ys := rfl

/-- Dropping a tag byte and a 4-byte fixed32 payload. -/
theorem drop_one_four {p : List Nat} (hp : p.length = 4) (a : Nat) (ys : List Nat) :
    (a :: (p ++ ys)).drop (1 + 4) = ys := by
  have h : (1 : Nat) + 4 = p.length + 1 := by omega
  rw [h]
  show (p ++ ys).drop p.length = ys
  exact List.drop_left p ys

namespace Embedded

/-- `readLenDelim` on an exact length-prefixed payload followed by
arbitrary trailing bytes. -/
theorem readLenDelim_exact_trail {content : List Nat} (h : content.length < 128)
    (ys : List Nat) :
    readLenDelim (content.length :: (content ++ ys)) =
      Except.ok (content, 1 + content.length) := by
  have h2 := readLenDelim_extend (readLenDelim_exact h) ys
  rw [List.cons_append] at h2
  exact h2

/-- One `_parse_vehicle_position` iteration on a trip submessage (field 1,
wire type 2) with trailing bytes. -/
theorem vpStep_trip {sub : List Nat} (h : sub.length < 128) {t : TripOut}
    (ht : parse_trip_descriptor sub = Except.ok t) (ys : List Nat)
    (out : VehiclePositionOut) :
    parseVehiclePositionStep (0x0A :: sub.length :: (sub ++ ys)) out =
      Except.ok (out.updateTrip t, 1 + (1 + sub.length)) := by
  unfold parseVehiclePositionStep
  rw [readVarintList_single (by norm_num : (0x0A : Nat) < 128)]
  simp [readLenDelim_exact_trail h, ht, (by decide : (10 : Nat) >>> 3 = 1),
    (by decide : (10 : Nat) &&& 7 = 2)]

/-- One `_parse_vehicle_position` iteration on a position submessage
(field 2, wire type 2) with trailing bytes. -/
theorem vpStep_position {sub : List Nat} (h : sub.length < 128) {p : PositionOut}
    (hp : parse_position sub = Except.ok p) (ys : List Nat)
    (out : VehiclePositionOut) :
    parseVehiclePositionStep (0x12 :: sub.length :: (sub ++ ys)) out =
      Except.ok (out.updatePosition p, 1 + (1 + sub.length)) := by
  unfold parseVehiclePositionStep
  rw [readVarintList_single (by norm_num : (0x12 : Nat) < 128)]
  simp [readLenDelim_exact_trail h, hp, (by decide : (0x12 : Nat) >>> 3 = 2),
    (by decide : (0x12 : Nat) &&& 7 = 2)]

/-- One `_parse_vehicle_position` iteration on a vehicle submessage
(field 8, wire type 2) with trailing bytes. -/
theorem vpStep_vehicle {sub : List Nat} (h : sub.length < 128) {v : VehicleDescOut}
    (hv : parse_vehicle_descriptor sub = Except.ok v) (ys : List Nat)
    (out : VehiclePositionOut) :
    parseVehiclePositionStep (0x42 :: sub.length :: (sub ++ ys)) out =
      Except.ok (out.updateVehicleDesc v, 1 + (1 + sub.length)) := by
  unfold parseVehiclePositionStep
  rw [readVarintList_single (by norm_num : (0x42 : Nat) < 128)]
  simp [readLenDelim_exact_trail h, hv, (by decide : (0x42 : Nat) >>> 3 = 8),
    (by decide : (0x42 : Nat) &&& 7 = 2)]

/-- One `_parse_vehicle_position` iteration on a stop_id string (field 7,
wire type 2) with trailing bytes. -/
theorem vpStep_stop {s : List Nat} (h : s.length < 128) (ys : List Nat)
    (out : VehiclePositionOut) :
    parseVehiclePositionStep (0x3A :: s.length :: (s ++ ys)) out =
      Except.ok ({ out with current_stop_id := some (decodeUtf8Ignore s) },
        1 + (1 + s.length)) := by
  unfold parseVehiclePositionStep
  rw [readVarintList_single (by norm_num : (0x3A : Nat) < 128)]
  simp [readLenDelim_exact_trail h, (by decide : (0x3A : Nat) >>> 3 = 7),
    (by decide : (0x3A : Nat) &&& 7 = 2)]

/-- One `_parse_vehicle_position` iteration on a timestamp varint (field 5,
wire type 0) with trailing bytes. -/
theorem vpStep_timestamp {v : Nat} (hv : v < 128) (ys : List Nat)
    (out : VehiclePositionOut) :
    parseVehiclePositionStep (0x28 :: v :: ys) out =
      Except.ok ({ out with timestamp := some v }, 1 + 1) := by
  unfold parseVehiclePositionStep
  rw [readVarintList_single (by norm_num : (0x28 : Nat) < 128)]
  simp [readVarintList_single hv, (by decide : (0x28 : Nat) >>> 3 = 5),
    (by decide : (0x28 : Nat) &&& 7 = 0)]

end Embedded

namespace Embedded

/-- One `_parse_trip_descriptor` iteration on a `trip_id` string (field 1,
wire type 2) with trailing bytes. -/
theorem tripStep_trip_id {s : List Nat} (h : s.length < 128) (ys : List Nat)
    (out : TripOut) :
    parseTripStep (0x0A :: s.length :: (s ++ ys)) out =
      Except.ok ({ out with trip_id := some (decodeUtf8Ignore s) },
        1 + (1 + s.length)) := by
  unfold parseTripStep
  rw [readVarintList_single (by norm_num : (0x0A : Nat) < 128)]
  simp [readLenDelim_exact_trail h, (by decide : (10 : Nat) >>> 3 = 1),
    (by decide : (10 : Nat) &&& 7 = 2)]

/-- One `_parse_trip_descriptor` iteration on a `start_time` string
(field 2, wire type 2) with trailing bytes. -/
theorem tripStep_start_time {s : List Nat} (h : s.length < 128) (ys : List Nat)
    (out : TripOut) :
    parseTripStep (0x12 :: s.length :: (s ++ ys)) out =
      Except.ok ({ out with start_time := some (decodeUtf8Ignore s) },
        1 + (1 + s.length)) := by
  unfold parseTripStep
  rw [readVarintList_single (by norm_num : (0x12 : Nat) < 128)]
  simp [readLenDelim_exact_trail h, (by decide : (0x12 : Nat) >>> 3 = 2),
    (by decide : (0x12 : Nat) &&& 7 = 2)]

/-- One `_parse_trip_descriptor` iteration on a `start_date` string
(field 3, wire type 2) with trailing bytes. -/
theorem tripStep_start_date {s : List Nat} (h : s.length < 128) (ys : List Nat)
    (out : TripOut) :
    parseTripStep (0x1A :: s.length :: (s ++ ys)) out =
      Except.ok ({ out with start_date := some (decodeUtf8Ignore s) },
        1 + (1 + s.length)) := by
  unfold parseTripStep
  rw [readVarintList_single (by norm_num : (0x1A : Nat) < 128)]
  simp [readLenDelim_exact_trail h, (by decide : (0x1A : Nat) >>> 3 = 3),
    (by decide : (0x1A : Nat) &&& 7 = 2)]

/-- One `_parse_trip_descriptor` iteration on a `route_id` string (field 5,
wire type 2) with trailing bytes. -/
theorem tripStep_route_id {s : List Nat} (h : s.length < 128) (ys : List Nat)
    (out : TripOut) :
    parseTripStep (0x2A :: s.length :: (s ++ ys)) out =
      Except.ok ({ out with route_id := some (decodeUtf8Ignore s) },
        1 + (1 + s.length)) := by
  unfold parseTripStep
  rw [readVarintList_single (by norm_num : (0x2A : Nat) < 128)]
  simp [readLenDelim_exact_trail h, (by decide : (0x2A : Nat) >>> 3 = 5),
    (by decide : (0x2A : Nat) &&& 7 = 2)]

/-- One `_parse_trip_descriptor` iteration on a `direction_id` varint
(field 6, wire type 0) with trailing bytes. -/
theorem tripStep_direction_id {v : Nat} (hv : v < 128) (ys : List Nat)
    (out : TripOut) :
    parseTripStep (0x30 :: v :: ys) out =
      Except.ok ({ out with direction_id := some v }, 1 + 1) := by
  unfold parseTripStep
  rw [readVarintList_single (by norm_num : (0x30 : Nat) < 128)]
  simp [readVarintList_single hv, (by decide : (0x30 : Nat) >>> 3 = 6),
    (by decide : (0x30 : Nat) &&& 7 = 0)]

/-- One `_parse_vehicle_descriptor` iteration on an `id` string (field 1,
wire type 2) with trailing bytes. -/
theorem vdStep_id {s : List Nat} (h : s.length < 128) (ys : List Nat)
    (out : VehicleDescOut) :
    parseVehicleDescStep (0x0A :: s.length :: (s ++ ys)) out =
      Except.ok ({ out with vehicle_id := some (decodeUtf8Ignore s) },
        1 + (1 + s.length)) := by
  unfold parseVehicleDescStep
  rw [readVarintList_single (by norm_num : (0x0A : Nat) < 128)]
  simp [readLenDelim_exact_trail h, (by decide : (10 : Nat) >>> 3 = 1),
    (by decide : (10 : Nat) &&& 7 = 2)]

/-- One `_parse_vehicle_descriptor` iteration on a `label` string (field 2,
wire type 2) with trailing bytes. -/
theorem vdStep_label {s : List Nat} (h : s.length < 128) (ys : List Nat)
    (out : VehicleDescOut) :
    parseVehicleDescStep (0x12 :: s.length :: (s ++ ys)) out =
      Except.ok ({ out with vehicle_label := some (decodeUtf8Ignore s) },
        1 + (1 + s.length)) := by
  unfold parseVehicleDescStep
  rw [readVarintList_single (by norm_num : (0x12 : Nat) < 128)]
  simp [readLenDelim_exact_trail h, (by decide : (0x12 : Nat) >>> 3 = 2),
    (by decide : (0x12 : Nat) &&& 7 = 2)]

/-- One `_parse_vehicle_descriptor` iteration on a `license_plate` string
(field 3, wire type 2) with trailing bytes. -/
theorem vdStep_license_plate {s : List Nat} (h : s.length < 128) (ys : List Nat)
    (out : VehicleDescOut) :
    parseVehicleDescStep (0x1A :: s.length :: (s ++ ys)) out =
      Except.ok ({ out with license_plate := some (decodeUtf8Ignore s) },
        1 + (1 + s.length)) := by
  unfold parseVehicleDescStep
  rw [readVarintList_single (by norm_num : (0x1A : Nat) < 128)]
  simp [readLenDelim_exact_trail h, (by decide : (0x1A : Nat) >>> 3 = 3),
    (by decide : (0x1A : Nat) &&& 7 = 2)]

/-- One `_parse_position` iteration on a `latitude` fixed32 (field 1, wire
type 5) with trailing bytes. -/
theorem posStep_latitude {p : List Nat} (hp : p.length = 4) (ys : List Nat)
    (out : PositionOut) :
    parsePositionStep (0x0D :: (p ++ ys)) out =
      Except.ok ({ out with latitude := some p }, 1 + 4) := by
  unfold parsePositionStep
  rw [readVarintList_single (by norm_num : (0x0D : Nat) < 128)]
  simp [readBytesList_four_trail hp, (by decide : (13 : Nat) >>> 3 = 1),
    (by decide : (13 : Nat) &&& 7 = 5)]

/-- One `_parse_position` iteration on a `longitude` fixed32 (field 2, wire
type 5) with trailing bytes. -/
theorem posStep_longitude {p : List Nat} (hp : p.length = 4) (ys : List Nat)
    (out : PositionOut) :
    parsePositionStep (0x15 :: (p ++ ys)) out =
      Except.ok ({ out with longitude := some p }, 1 + 4) := by
  unfold parsePositionStep
  rw [readVarintList_single (by norm_num : (0x15 : Nat) < 128)]
  simp [readBytesList_four_trail hp, (by decide : (0x15 : Nat) >>> 3 = 2),
    (by decide : (0x15 : Nat) &&& 7 = 5)]

/-- One `_parse_position` iteration on a `bearing` fixed32 (field 3, wire
type 5) with trailing bytes. -/
theorem posStep_bearing {p : List Nat} (hp : p.length = 4) (ys : List Nat)
    (out : PositionOut) :
    parsePositionStep (0x1D :: (p ++ ys)) out =
      Except.ok ({ out with bearing := some p }, 1 + 4) := by
  unfold parsePositionStep
  rw [readVarintList_single (by norm_num : (0x1D : Nat) < 128)]
  simp [readBytesList_four_trail hp, (by decide : (0x1D : Nat) >>> 3 = 3),
    (by decide : (0x1D : Nat) &&& 7 = 5)]

/-- One `_parse_position` iteration on a `speed` fixed32 (field 5, wire
type 5) with trailing bytes. -/
theorem posStep_speed {p : List Nat} (hp : p.length = 4) (ys : List Nat)
    (out : PositionOut) :
    parsePositionStep (0x2D :: (p ++ ys)) out =
      Except.ok ({ out with speed := some p }, 1 + 4) := by
  unfold parsePositionStep
  rw [readVarintList_single (by norm_num : (0x2D : Nat) < 128)]
  simp [readBytesList_four_trail hp, (by decide : (0x2D : Nat) >>> 3 = 5),
    (by decide : (0x2D : Nat) &&& 7 = 5)]

/-- One `_parse_feed_entity_vehicle` iteration on a vehicle submessage
(field 4, wire type 2) with trailing bytes. -/
theorem feStep_vehicle {sub : List Nat} (h : sub.length < 128)
    {vp : VehiclePositionOut} (hvp : parse_vehicle_position sub = Except.ok vp)
    (ys : List Nat) (st : Option VehiclePositionOut) :
    parseFeedEntityStep (0x22 :: sub.length :: (sub ++ ys)) st =
      Except.ok (some vp, 1 + (1 + sub.length)) := by
  unfold parseFeedEntityStep
  rw [readVarintList_single (by norm_num : (0x22 : Nat) < 128)]
  simp [readLenDelim_exact_trail h, hvp, (by decide : (0x22 : Nat) >>> 3 = 4),
    (by decide : (0x22 : Nat) &&& 7 = 2)]

end Embedded

namespace Embedded

/-- The `_parse_vehicle_position` loop on a concatenation of well-formed
field occurrences computes the left fold of the per-occurrence dictionary
overwrites: every store overwrites, so the last occurrence of a field
wins. -/
theorem parseVehiclePositionLoop_fields (fs : List VPField) :
    ∀ (fuel : Nat) (out : VehiclePositionOut), (∀ f ∈ fs, f.wf = true) →
      ((fs.map VPField.encode).flatten).length < fuel →
      parseVehiclePositionLoop fuel ((fs.map VPField.encode).flatten) out =
        Except.ok (fs.foldl (fun o f => f.apply o) out) := by
  induction fs with
  | nil =>
    intro fuel out _ hfuel
    cases fuel with
    | zero => omega
    | succ F => simp [parseVehiclePositionLoop]
  | cons f fs ih =>
    intro fuel out hwf hfuel
    have hwff : f.wf = true := hwf f (List.mem_cons_self f fs)
    have hwfs : ∀ g ∈ fs, g.wf = true := fun g hg => hwf g (List.mem_cons_of_mem f hg)
    rw [List.map_cons, List.flatten_cons] at hfuel ⊢
    cases fuel with
    | zero => omega
    | succ F =>
      cases f with
      | trip sub =>
        simp only [VPField.wf, Bool.and_eq_true, decide_eq_true_eq] at hwff
        obtain ⟨hlen, hok⟩ := hwff
        rcases ht : parse_trip_descriptor sub with e | t
        · rw [ht] at hok; simp [decodeOk] at hok
        · have henc : VPField.encode (VPField.trip sub) ++ (fs.map VPField.encode).flatten =
              0x0A :: sub.length :: (sub ++ (fs.map VPField.encode).flatten) := by
            simp [VPField.encode]
          rw [henc] at hfuel ⊢
          conv_lhs => rw [parseVehiclePositionLoop]
          rw [vpStep_trip hlen ht _ out]
          simp only [drop_tag_len_payload, List.foldl_cons, VPField.apply, tripResult, ht]
          apply ih F _ hwfs
          simp only [List.length_cons, List.length_append] at hfuel
          omega
      | position sub =>
        simp only [VPField.wf, Bool.and_eq_true, decide_eq_true_eq] at hwff
        obtain ⟨hlen, hok⟩ := hwff
        rcases hp : parse_position sub with e | p
        · rw [hp] at hok; simp [decodeOk] at hok
        · have henc : VPField.encode (VPField.position sub) ++ (fs.map VPField.encode).flatten =
              0x12 :: sub.length :: (sub ++ (fs.map VPField.encode).flatten) := by
            simp [VPField.encode]
          rw [henc] at hfuel ⊢
          conv_lhs => rw [parseVehiclePositionLoop]
          rw [vpStep_position hlen hp _ out]
          simp only [drop_tag_len_payload, List.foldl_cons, VPField.apply, positionResult, hp]
          apply ih F _ hwfs
          simp only [List.length_cons, List.length_append] at hfuel
          omega
      | stop_id str =>
        simp only [VPField.wf, decide_eq_true_eq] at hwff
        have henc : VPField.encode (VPField.stop_id str) ++ (fs.map VPField.encode).flatten =
            0x3A :: str.length :: (str ++ (fs.map VPField.encode).flatten) := by
          simp [VPField.encode]
        rw [henc] at hfuel ⊢
        conv_lhs => rw [parseVehiclePositionLoop]
        rw [vpStep_stop hwff _ out]
        simp only [drop_tag_len_payload, List.foldl_cons, VPField.apply]
        apply ih F _ hwfs
        simp only [List.length_cons, List.length_append] at hfuel
        omega
      | timestamp v =>
        simp only [VPField.wf, decide_eq_true_eq] at hwff
        have henc : VPField.encode (VPField.timestamp v) ++ (fs.map VPField.encode).flatten =
            0x28 :: v :: (fs.map VPField.encode).flatten := by
          simp [VPField.encode]
        rw [henc] at hfuel ⊢
        conv_lhs => rw [parseVehiclePositionLoop]
        rw [vpStep_timestamp hwff _ out]
        simp only [drop_two_simple, List.foldl_cons, VPField.apply]
        apply ih F _ hwfs
        simp only [List.length_cons] at hfuel
        omega
      | vehicle sub =>
        simp only [VPField.wf, Bool.and_eq_true, decide_eq_true_eq] at hwff
        obtain ⟨hlen, hok⟩ := hwff
        rcases hv : parse_vehicle_descriptor sub with e | v
        · rw [hv] at hok; simp [decodeOk] at hok
        · have henc : VPField.encode (VPField.vehicle sub) ++ (fs.map VPField.encode).flatten =
              0x42 :: sub.length :: (sub ++ (fs.map VPField.encode).flatten) := by
            simp [VPField.encode]
          rw [henc] at hfuel ⊢
          conv_lhs => rw [parseVehiclePositionLoop]
          rw [vpStep_vehicle hlen hv _ out]
          simp only [drop_tag_len_payload, List.foldl_cons, VPField.apply, vehicleDescResult, hv]
          apply ih F _ hwfs
          simp only [List.length_cons, List.length_append] at hfuel
          omega

end Embedded

namespace Embedded

/-- The `_parse_trip_descriptor` loop on a concatenation of well-formed
field occurrences computes the left fold of the overwrites. -/
theorem parseTripLoop_fields (fs : List TripField) :
    ∀ (fuel : Nat) (out : TripOut), (∀ f ∈ fs, f.wf = true) →
      ((fs.map TripField.encode).flatten).length < fuel →
      parseTripLoop fuel ((fs.map TripField.encode).flatten) out =
        Except.ok (fs.foldl (fun o f => f.apply o) out) := by
  induction fs with
  | nil =>
    intro fuel out _ hfuel
    cases fuel with
    | zero => omega
    | succ F => simp [parseTripLoop]
  | cons f fs ih =>
    intro fuel out hwf hfuel
    have hwff : f.wf = true := hwf f (List.mem_cons_self f fs)
    have hwfs : ∀ g ∈ fs, g.wf = true := fun g hg => hwf g (List.mem_cons_of_mem f hg)
    rw [List.map_cons, List.flatten_cons] at hfuel ⊢
    cases fuel with
    | zero => omega
    | succ F =>
      cases f with
      | trip_id str =>
        simp only [TripField.wf, decide_eq_true_eq] at hwff
        have henc : TripField.encode (TripField.trip_id str) ++ (fs.map TripField.encode).flatten =
            0x0A :: str.length :: (str ++ (fs.map TripField.encode).flatten) := by
          simp [TripField.encode]
        rw [henc] at hfuel ⊢
        conv_lhs => rw [parseTripLoop]
        rw [tripStep_trip_id hwff _ out]
        simp only [drop_tag_len_payload, List.foldl_cons, TripField.apply]
        apply ih F _ hwfs
        simp only [List.length_cons, List.length_append] at hfuel
        omega
      | start_time str =>
        simp only [TripField.wf, decide_eq_true_eq] at hwff
        have henc : TripField.encode (TripField.start_time str) ++ (fs.map TripField.encode).flatten =
            0x12 :: str.length :: (str ++ (fs.map TripField.encode).flatten) := by
          simp [TripField.encode]
        rw [henc] at hfuel ⊢
        conv_lhs => rw [parseTripLoop]
        rw [tripStep_start_time hwff _ out]
        simp only [drop_tag_len_payload, List.foldl_cons, TripField.apply]
        apply ih F _ hwfs
        simp only [List.length_cons, List.length_append] at hfuel
        omega
      | start_date str =>
        simp only [TripField.wf, decide_eq_true_eq] at hwff
        have henc : TripField.encode (TripField.start_date str) ++ (fs.map TripField.encode).flatten =
            0x1A :: str.length :: (str ++ (fs.map TripField.encode).flatten) := by
          simp [TripField.encode]
        rw [henc] at hfuel ⊢
        conv_lhs => rw [parseTripLoop]
        rw [tripStep_start_date hwff _ out]
        simp only [drop_tag_len_payload, List.foldl_cons, TripField.apply]
        apply ih F _ hwfs
        simp only [List.length_cons, List.length_append] at hfuel
        omega
      | route_id str =>
        simp only [TripField.wf, decide_eq_true_eq] at hwff
        have henc : TripField.encode (TripField.route_id str) ++ (fs.map TripField.encode).flatten =
            0x2A :: str.length :: (str ++ (fs.map TripField.encode).flatten) := by
          simp [TripField.encode]
        rw [henc] at hfuel ⊢
        conv_lhs => rw [parseTripLoop]
        rw [tripStep_route_id hwff _ out]
        simp only [drop_tag_len_payload, List.foldl_cons, TripField.apply]
        apply ih F _ hwfs
        simp only [List.length_cons, List.length_append] at hfuel
        omega
      | direction_id v =>
        simp only [TripField.wf, decide_eq_true_eq] at hwff
        have henc : TripField.encode (TripField.direction_id v) ++ (fs.map TripField.encode).flatten =
            0x30 :: v :: (fs.map TripField.encode).flatten := by
          simp [TripField.encode]
        rw [henc] at hfuel ⊢
        conv_lhs => rw [parseTripLoop]
        rw [tripStep_direction_id hwff _ out]
        simp only [drop_two_simple, List.foldl_cons, TripField.apply]
        apply ih F _ hwfs
        simp only [List.length_cons] at hfuel
        omega

/-- The `_parse_vehicle_descriptor` loop on a concatenation of well-formed
field occurrences computes the left fold of the overwrites. -/
theorem parseVehicleDescLoop_fields (fs : List VehicleDescField) :
    ∀ (fuel : Nat) (out : VehicleDescOut), (∀ f ∈ fs, f.wf = true) →
      ((fs.map VehicleDescField.encode).flatten).length < fuel →
      parseVehicleDescLoop fuel ((fs.map VehicleDescField.encode).flatten) out =
        Except.ok (fs.foldl (fun o f => f.apply o) out) := by
  induction fs with
  | nil =>
    intro fuel out _ hfuel
    cases fuel with
    | zero => omega
    | succ F => simp [parseVehicleDescLoop]
  | cons f fs ih =>
    intro fuel out hwf hfuel
    have hwff : f.wf = true := hwf f (List.mem_cons_self f fs)
    have hwfs : ∀ g ∈ fs, g.wf = true := fun g hg => hwf g (List.mem_cons_of_mem f hg)
    rw [List.map_cons, List.flatten_cons] at hfuel ⊢
    cases fuel with
    | zero => omega
    | succ F =>
      cases f with
      | id str =>
        simp only [VehicleDescField.wf, decide_eq_true_eq] at hwff
        have henc : VehicleDescField.encode (VehicleDescField.id str) ++
              (fs.map VehicleDescField.encode).flatten =
            0x0A :: str.length :: (str ++ (fs.map VehicleDescField.encode).flatten) := by
          simp [VehicleDescField.encode]
        rw [henc] at hfuel ⊢
        conv_lhs => rw [parseVehicleDescLoop]
        rw [vdStep_id hwff _ out]
        simp only [drop_tag_len_payload, List.foldl_cons, VehicleDescField.apply]
        apply ih F _ hwfs
        simp only [List.length_cons, List.length_append] at hfuel
        omega
      | label str =>
        simp only [VehicleDescField.wf, decide_eq_true_eq] at hwff
        have henc : VehicleDescField.encode (VehicleDescField.label str) ++
              (fs.map VehicleDescField.encode).flatten =
            0x12 :: str.length :: (str ++ (fs.map VehicleDescField.encode).flatten) := by
          simp [VehicleDescField.encode]
        rw [henc] at hfuel ⊢
        conv_lhs => rw [parseVehicleDescLoop]
        rw [vdStep_label hwff _ out]
        simp only [drop_tag_len_payload, List.foldl_cons, VehicleDescField.apply]
        apply ih F _ hwfs
        simp only [List.length_cons, List.length_append] at hfuel
        omega
      | license_plate str =>
        simp only [VehicleDescField.wf, decide_eq_true_eq] at hwff
        have henc : VehicleDescField.encode (VehicleDescField.license_plate str) ++
              (fs.map VehicleDescField.encode).flatten =
            0x1A :: str.length :: (str ++ (fs.map VehicleDescField.encode).flatten) := by
          simp [VehicleDescField.encode]
        rw [henc] at hfuel ⊢
        conv_lhs => rw [parseVehicleDescLoop]
        rw [vdStep_license_plate hwff _ out]
        simp only [drop_tag_len_payload, List.foldl_cons, VehicleDescField.apply]
        apply ih F _ hwfs
        simp only [List.length_cons, List.length_append] at hfuel
        omega

end Embedded

namespace Embedded

/-- The `_parse_position` loop on a concatenation of well-formed field
occurrences computes the left fold of the overwrites. -/
theorem parsePositionLoop_fields (fs : List PositionField) :
    ∀ (fuel : Nat) (out : PositionOut), (∀ f ∈ fs, f.wf = true) →
      ((fs.map PositionField.encode).flatten).length < fuel →
      parsePositionLoop fuel ((fs.map PositionField.encode).flatten) out =
        Except.ok (fs.foldl (fun o f => f.apply o) out) := by
  induction fs with
  | nil =>
    intro fuel out _ hfuel
    cases fuel with
    | zero => omega
    | succ F => simp [parsePositionLoop]
  | cons f fs ih =>
    intro fuel out hwf hfuel
    have hwff : f.wf = true := hwf f (List.mem_cons_self f fs)
    have hwfs : ∀ g ∈ fs, g.wf = true := fun g hg => hwf g (List.mem_cons_of_mem f hg)
    rw [List.map_cons, List.flatten_cons] at hfuel ⊢
    cases fuel with
    | zero => omega
    | succ F =>
      cases f with
      | latitude p =>
        simp only [PositionField.wf, decide_eq_true_eq] at hwff
        have henc : PositionField.encode (PositionField.latitude p) ++
              (fs.map PositionField.encode).flatten =
            0x0D :: (p ++ (fs.map PositionField.encode).flatten) := by
          simp [PositionField.encode]
        rw [henc] at hfuel ⊢
        conv_lhs => rw [parsePositionLoop]
        rw [posStep_latitude hwff _ out]
        simp only [drop_one_four hwff, List.foldl_cons, PositionField.apply]
        apply ih F _ hwfs
        simp only [List.length_cons, List.length_append] at hfuel
        omega
      | longitude p =>
        simp only [PositionField.wf, decide_eq_true_eq] at hwff
        have henc : PositionField.encode (PositionField.longitude p) ++
              (fs.map PositionField.encode).flatten =
            0x15 :: (p ++ (fs.map PositionField.encode).flatten) := by
          simp [PositionField.encode]
        rw [henc] at hfuel ⊢
        conv_lhs => rw [parsePositionLoop]
        rw [posStep_longitude hwff _ out]
        simp only [drop_one_four hwff, List.foldl_cons, PositionField.apply]
        apply ih F _ hwfs
        simp only [List.length_cons, List.length_append] at hfuel
        omega
      | bearing p =>
        simp only [PositionField.wf, decide_eq_true_eq] at hwff
        have henc : PositionField.encode (PositionField.bearing p) ++
              (fs.map PositionField.encode).flatten =
            0x1D :: (p ++ (fs.map PositionField.encode).flatten) := by
          simp [PositionField.encode]
        rw [henc] at hfuel ⊢
        conv_lhs => rw [parsePositionLoop]
        rw [posStep_bearing hwff _ out]
        simp only [drop_one_four hwff, List.foldl_cons, PositionField.apply]
        apply ih F _ hwfs
        simp only [List.length_cons, List.length_append] at hfuel
        omega
      | speed p =>
        simp only [PositionField.wf, decide_eq_true_eq] at hwff
        have henc : PositionField.encode (PositionField.speed p) ++
              (fs.map PositionField.encode).flatten =
            0x2D :: (p ++ (fs.map PositionField.encode).flatten) := by
          simp [PositionField.encode]
        rw [henc] at hfuel ⊢
        conv_lhs => rw [parsePositionLoop]
        rw [posStep_speed hwff _ out]
        simp only [drop_one_four hwff, List.foldl_cons, PositionField.apply]
        apply ih F _ hwfs
        simp only [List.length_cons, List.length_append] at hfuel
        omega

/-- The `_parse_feed_entity_vehicle` loop on a concatenation of well-formed
vehicle occurrences computes the left fold of the overwrites: each decoded
vehicle submessage replaces the `vehicle` variable wholesale. -/
theorem parseFeedEntityLoop_fields (fs : List FeedEntityField) :
    ∀ (fuel : Nat) (st : Option VehiclePositionOut), (∀ f ∈ fs, f.wf = true) →
      ((fs.map FeedEntityField.encode).flatten).length < fuel →
      parseFeedEntityLoop fuel ((fs.map FeedEntityField.encode).flatten) st =
        Except.ok (fs.foldl (fun o f => f.apply o) st) := by
  induction fs with
  | nil =>
    intro fuel st _ hfuel
    cases fuel with
    | zero => omega
    | succ F => simp [parseFeedEntityLoop]
  | cons f fs ih =>
    intro fuel st hwf hfuel
    have hwff : f.wf = true := hwf f (List.mem_cons_self f fs)
    have hwfs : ∀ g ∈ fs, g.wf = true := fun g hg => hwf g (List.mem_cons_of_mem f hg)
    rw [List.map_cons, List.flatten_cons] at hfuel ⊢
    cases fuel with
    | zero => omega
    | succ F =>
      cases f with
      | vehicle sub =>
        simp only [FeedEntityField.wf, Bool.and_eq_true, decide_eq_true_eq] at hwff
        obtain ⟨hlen, hok⟩ := hwff
        rcases hvp : parse_vehicle_position sub with e | vp
        · rw [hvp] at hok; simp [decodeOk] at hok
        · have henc : FeedEntityField.encode (FeedEntityField.vehicle sub) ++
                (fs.map FeedEntityField.encode).flatten =
              0x22 :: sub.length :: (sub ++ (fs.map FeedEntityField.encode).flatten) := by
            simp [FeedEntityField.encode]
          rw [henc] at hfuel ⊢
          conv_lhs => rw [parseFeedEntityLoop]
          rw [feStep_vehicle hlen hvp _ st]
          simp only [drop_tag_len_payload, List.foldl_cons, FeedEntityField.apply,
            vehiclePositionResult, hvp]
          apply ih F _ hwfs
          simp only [List.length_cons, List.length_append] at hfuel
          omega

end Embedded

namespace Embedded

/-- `_parse_vehicle_position` on a concatenation of well-formed field
occurrences is the left fold of the overwrites over the all-`None`
dictionary. -/
theorem parse_vehicle_position_fields (fs : List VPField)
    (hwf : ∀ f ∈ fs, f.wf = true) :
    parse_vehicle_position ((fs.map VPField.encode).flatten) =
      Except.ok (fs.foldl (fun o f => f.apply o) emptyVehiclePosition) :=
  parseVehiclePositionLoop_fields fs _ _ hwf (Nat.lt_succ_self _)

/-- `_parse_trip_descriptor` on a concatenation of well-formed field
occurrences is the left fold of the overwrites. -/
theorem parse_trip_descriptor_fields (fs : List TripField)
    (hwf : ∀ f ∈ fs, f.wf = true) :
    parse_trip_descriptor ((fs.map TripField.encode).flatten) =
      Except.ok (fs.foldl (fun o f => f.apply o) ⟨none, none, none, none, none⟩) :=
  parseTripLoop_fields fs _ _ hwf (Nat.lt_succ_self _)

/-- `_parse_vehicle_descriptor` on a concatenation of well-formed field
occurrences is the left fold of the overwrites. -/
theorem parse_vehicle_descriptor_fields (fs : List VehicleDescField)
    (hwf : ∀ f ∈ fs, f.wf = true) :
    parse_vehicle_descriptor ((fs.map VehicleDescField.encode).flatten) =
      Except.ok (fs.foldl (fun o f => f.apply o) ⟨none, none, none⟩) :=
  parseVehicleDescLoop_fields fs _ _ hwf (Nat.lt_succ_self _)

/-- `_parse_position` on a concatenation of well-formed field occurrences
is the left fold of the overwrites. -/
theorem parse_position_fields (fs : List PositionField)
    (hwf : ∀ f ∈ fs, f.wf = true) :
    parse_position ((fs.map PositionField.encode).flatten) =
      Except.ok (fs.foldl (fun o f => f.apply o) ⟨none, none, none, none⟩) :=
  parsePositionLoop_fields fs _ _ hwf (Nat.lt_succ_self _)

/-- `_parse_feed_entity_vehicle` on a concatenation of well-formed vehicle
occurrences is the left fold of the overwrites over the initial `None`. -/
theorem parse_feed_entity_vehicle_fields (fs : List FeedEntityField)
    (hwf : ∀ f ∈ fs, f.wf = true) :
    parse_feed_entity_vehicle ((fs.map FeedEntityField.encode).flatten) =
      Except.ok (fs.foldl (fun o f => f.apply o) none) :=
  parseFeedEntityLoop_fields fs _ _ hwf (Nat.lt_succ_self _)

/-- The folded dictionary's timestamp is the value of the *last* timestamp
occurrence (or the initial value when there is none): only a timestamp
field writes that slot, and it overwrites. -/
theorem vpFold_timestamp (fs : List VPField) :
    ∀ out : VehiclePositionOut,
      (fs.foldl (fun o f => f.apply o) out).timestamp =
        fs.foldl (fun acc f => match f with
          | VPField.timestamp v => some v
          | _ => acc) out.timestamp := by
  induction fs with
  | nil => intro out; rfl
  | cons f fs ih =>
    intro out
    rw [List.foldl_cons, List.foldl_cons, ih]
    cases f <;> rfl

/-- The folded dictionary's trip_id is the one carried by the *last* trip
submessage occurrence (or the initial value when there is none): repeated
trip submessages replace all five flattened trip keys wholesale. -/
theorem vpFold_trip_id (fs : List VPField) :
    ∀ out : VehiclePositionOut,
      (fs.foldl (fun o f => f.apply o) out).trip_id =
        fs.foldl (fun acc f => match f with
          | VPField.trip sub => (tripResult sub).trip_id
          | _ => acc) out.trip_id := by
  induction fs with
  | nil => intro out; rfl
  | cons f fs ih =>
    intro out
    rw [List.foldl_cons, List.foldl_cons, ih]
    cases f <;> rfl

/-- Inside `_parse_trip_descriptor` as well, the folded trip_id is the last
`trip_id` string occurrence. -/
theorem tripFold_trip_id (fs : List TripField) :
    ∀ out : TripOut,
      (fs.foldl (fun o f => f.apply o) out).trip_id =
        fs.foldl (fun acc f => match f with
          | TripField.trip_id s => some (decodeUtf8Ignore s)
          | _ => acc) out.trip_id := by
  induction fs with
  | nil => intro out; rfl
  | cons f fs ih =>
    intro out
    rw [List.foldl_cons, List.foldl_cons, ih]
    cases f <;> rfl

end Embedded

/-! ## Claim theorems -/

/-- Claim C1 counterexample: a FeedEntity buffer whose field number 2
(wire type 2) carries a perfectly decodable VehiclePosition (a timestamp
field) yields no vehicle — field 2 is skipped, not decoded as the claim
states; the second conjunct shows the payload would decode as a
VehiclePosition had field 2 been treated as the vehicle field. -/
theorem c1_counterexample :
    Embedded.parse_feed_entity_vehicle [0x12, 0x02, 0x28, 0x07] = Except.ok none ∧
    Embedded.parse_vehicle_position [0x28, 0x07] =
      Except.ok { Embedded.emptyVehiclePosition with timestamp := some 7 } := by
  exact ⟨by decide, by decide⟩

/-- Claim C1 (amended): in the FeedEntity assembler, field number 4 with
wire type 2 is decoded as the vehicle (VehiclePosition) submessage and is
the only field decoded; length-delimited fields 1 (id), 3 (trip_update) and
5 (alert), and varint field 2 (is_deleted), are skipped by wire type
without inspection of their content. -/
theorem c1_feed_entity_field4_only :
    (∀ sub : List Nat, sub.length < 128 →
      Embedded.parse_feed_entity_vehicle (0x22 :: sub.length :: sub) =
        (Embedded.parse_vehicle_position sub).map some) ∧
    (∀ sub : List Nat, sub.length < 128 → ∀ t ∈ ([0x0A, 0x1A, 0x2A] : List Nat),
      Embedded.parse_feed_entity_vehicle (t :: sub.length :: sub) = Except.ok none) ∧
    (∀ v : Nat, v < 128 →
      Embedded.parse_feed_entity_vehicle [0x10, v] = Except.ok none) := by
  refine ⟨fun sub h => Embedded.parse_feed_entity_field4 h, fun sub h t htm => ?_,
    fun v hv => Embedded.parse_feed_entity_skip_varint (by norm_num) (by decide)
      (by decide) hv⟩
  simp only [List.mem_cons, List.not_mem_nil, or_false] at htm
  rcases htm with h1 | h1 | h1 <;> subst h1 <;>
    exact Embedded.parse_feed_entity_skip_lenfield (by norm_num) (by decide) (by decide) h

/-- Claim C1 witness: the amended theorem applied to concrete buffers (an
empty vehicle submessage in field 4; an empty trip_update in field 3; an
is_deleted flag in field 2). -/
theorem c1_witness :
    Embedded.parse_feed_entity_vehicle [0x22, 0x00] =
      Except.ok (some Embedded.emptyVehiclePosition) ∧
    Embedded.parse_feed_entity_vehicle [0x1A, 0x00] = Except.ok none ∧
    Embedded.parse_feed_entity_vehicle [0x10, 0x01] = Except.ok none := by
  refine ⟨?_, ?_, ?_⟩
  · exact (c1_feed_entity_field4_only.1 [] (by decide)).trans (by decide)
  · exact c1_feed_entity_field4_only.2.1 [] (by decide) 0x1A (by decide)
  · exact c1_feed_entity_field4_only.2.2 0x01 (by decide)

/-- Claim C2 (code bug): a FeedMessage holding a malformed first entity
(its vehicle field claims 5 bytes with none present) followed by a
well-formed sibling entity makes `_parse_feed_message_vehicles` raise
`Truncated protobuf message`, aborting the whole feed parse — the sibling
entity, which decodes fine on its own (second conjunct), is never
delivered, contradicting the claim that only the malformed entity is
dropped. -/
theorem c2_malformed_entity_aborts_whole_feed :
    Embedded.parse_feed_message_vehicles
        [0x12, 0x02, 0x22, 0x05, 0x12, 0x02, 0x22, 0x00] =
      Except.error "Truncated protobuf message" ∧
    Embedded.parse_feed_message_vehicles [0x12, 0x02, 0x22, 0x00] =
      Except.ok [Embedded.emptyVehiclePosition] := by
  exact ⟨by decide, by decide⟩

/-- Claim C6: last-occurrence-wins merge, for every repeated field of every
submessage assembler.  On a buffer that is any concatenation of well-formed
field occurrences — in any order, with any repetitions, with any fields
following — each of the five assemblers (`_parse_vehicle_position`,
`_parse_trip_descriptor`, `_parse_vehicle_descriptor`, `_parse_position`,
`_parse_feed_entity_vehicle`) succeeds and returns exactly the left fold of
the per-occurrence dictionary overwrites over its initial dictionary
(conjuncts 1-5), so every store overwrites and nothing is merged or
dropped; the final three conjuncts project the fold: the resulting
timestamp is the last timestamp occurrence's value, the resulting trip_id
is the one carried by the last trip submessage (repeated nested
submessages replace all their flattened keys wholesale), and inside the
trip assembler the trip_id is the last trip_id string. -/
theorem c6_last_occurrence_wins :
    (∀ fs : List Embedded.VPField, (∀ f ∈ fs, f.wf = true) →
      Embedded.parse_vehicle_position ((fs.map Embedded.VPField.encode).flatten) =
        Except.ok (fs.foldl (fun o f => f.apply o) Embedded.emptyVehiclePosition)) ∧
    (∀ fs : List Embedded.TripField, (∀ f ∈ fs, f.wf = true) →
      Embedded.parse_trip_descriptor ((fs.map Embedded.TripField.encode).flatten) =
        Except.ok (fs.foldl (fun o f => f.apply o) ⟨none, none, none, none, none⟩)) ∧
    (∀ fs : List Embedded.VehicleDescField, (∀ f ∈ fs, f.wf = true) →
      Embedded.parse_vehicle_descriptor
          ((fs.map Embedded.VehicleDescField.encode).flatten) =
        Except.ok (fs.foldl (fun o f => f.apply o) ⟨none, none, none⟩)) ∧
    (∀ fs : List Embedded.PositionField, (∀ f ∈ fs, f.wf = true) →
      Embedded.parse_position ((fs.map Embedded.PositionField.encode).flatten) =
        Except.ok (fs.foldl (fun o f => f.apply o) ⟨none, none, none, none⟩)) ∧
    (∀ fs : List Embedded.FeedEntityField, (∀ f ∈ fs, f.wf = true) →
      Embedded.parse_feed_entity_vehicle
          ((fs.map Embedded.FeedEntityField.encode).flatten) =
        Except.ok (fs.foldl (fun o f => f.apply o) none)) ∧
    (∀ (fs : List Embedded.VPField) (out : Embedded.VehiclePositionOut),
      (fs.foldl (fun o f => f.apply o) out).timestamp =
        fs.foldl (fun acc f => match f with
          | Embedded.VPField.timestamp v => some v
          | _ => acc) out.timestamp) ∧
    (∀ (fs : List Embedded.VPField) (out : Embedded.VehiclePositionOut),
      (fs.foldl (fun o f => f.apply o) out).trip_id =
        fs.foldl (fun acc f => match f with
          | Embedded.VPField.trip sub => (Embedded.tripResult sub).trip_id
          | _ => acc) out.trip_id) ∧
    (∀ (fs : List Embedded.TripField) (out : Embedded.TripOut),
      (fs.foldl (fun o f => f.apply o) out).trip_id =
        fs.foldl (fun acc f => match f with
          | Embedded.TripField.trip_id s => some (decodeUtf8Ignore s)
          | _ => acc) out.trip_id) :=
  ⟨Embedded.parse_vehicle_position_fields,
   Embedded.parse_trip_descriptor_fields,
   Embedded.parse_vehicle_descriptor_fields,
   Embedded.parse_position_fields,
   Embedded.parse_feed_entity_vehicle_fields,
   Embedded.vpFold_timestamp,
   Embedded.vpFold_trip_id,
   Embedded.tripFold_trip_id⟩

/-- Claim C6 witness: concrete repeated-field buffers for all five
assemblers — two timestamps then a stop_id, two trip_id strings then a
direction, two labels, two latitudes, and two vehicle submessages — each
decoded to the left fold of the overwrites (so the last occurrence wins). -/
theorem c6_witness :
    (Embedded.parse_vehicle_position
        (([Embedded.VPField.timestamp 5, Embedded.VPField.timestamp 7,
            Embedded.VPField.stop_id [0x58]].map Embedded.VPField.encode).flatten) =
      Except.ok ([Embedded.VPField.timestamp 5, Embedded.VPField.timestamp 7,
            Embedded.VPField.stop_id [0x58]].foldl (fun o f => f.apply o)
          Embedded.emptyVehiclePosition)) ∧
    (Embedded.parse_trip_descriptor
        (([Embedded.TripField.trip_id [0x41], Embedded.TripField.trip_id [0x42],
            Embedded.TripField.direction_id 3].map Embedded.TripField.encode).flatten) =
      Except.ok ([Embedded.TripField.trip_id [0x41], Embedded.TripField.trip_id [0x42],
            Embedded.TripField.direction_id 3].foldl (fun o f => f.apply o)
          ⟨none, none, none, none, none⟩)) ∧
    (Embedded.parse_vehicle_descriptor
        (([Embedded.VehicleDescField.label [0x41],
            Embedded.VehicleDescField.label [0x42]].map
          Embedded.VehicleDescField.encode).flatten) =
      Except.ok ([Embedded.VehicleDescField.label [0x41],
            Embedded.VehicleDescField.label [0x42]].foldl (fun o f => f.apply o)
          ⟨none, none, none⟩)) ∧
    (Embedded.parse_position
        (([Embedded.PositionField.latitude [1, 2, 3, 4],
            Embedded.PositionField.latitude [5, 6, 7, 8]].map
          Embedded.PositionField.encode).flatten) =
      Except.ok ([Embedded.PositionField.latitude [1, 2, 3, 4],
            Embedded.PositionField.latitude [5, 6, 7, 8]].foldl (fun o f => f.apply o)
          ⟨none, none, none, none⟩)) ∧
    (Embedded.parse_feed_entity_vehicle
        (([Embedded.FeedEntityField.vehicle [0x28, 5],
            Embedded.FeedEntityField.vehicle [0x28, 9]].map
          Embedded.FeedEntityField.encode).flatten) =
      Except.ok ([Embedded.FeedEntityField.vehicle [0x28, 5],
            Embedded.FeedEntityField.vehicle [0x28, 9]].foldl (fun o f => f.apply o)
          none)) :=
  ⟨c6_last_occurrence_wins.1 _ (by decide),
   c6_last_occurrence_wins.2.1 _ (by decide),
   c6_last_occurrence_wins.2.2.1 _ (by decide),
   c6_last_occurrence_wins.2.2.2.1 _ (by decide),
   c6_last_occurrence_wins.2.2.2.2.1 _ (by decide)⟩

/-- Claim C9: a failing tag-varint read at the top level of a FeedMessage
is caught and the vehicles accumulated so far are returned (first
conjunct, for every cursor state and accumulator); the same truncation
inside a header length prefix or inside an entity slice is not caught and
propagates as an error (second and third conjuncts). -/
theorem c9_top_level_truncation_containment :
    (∀ (fuel : Nat) (rem : List Nat) (veh : List Embedded.VehiclePositionOut)
      (e : String) (k : Nat), readVarintList rem 0 0 = (Except.error e, k) →
      Embedded.parseFeedLoop (fuel + 1) rem veh = Except.ok veh) ∧
    Embedded.parse_feed_message_vehicles [0x0A, 0x80] =
      Except.error "Truncated varint" ∧
    Embedded.parse_feed_message_vehicles [0x12, 0x02, 0x22, 0x05] =
      Except.error "Truncated protobuf message" := by
  refine ⟨?_, by decide, by decide⟩
  intro fuel rem veh e k h
  cases rem with
  | nil => simp [Embedded.parseFeedLoop]
  | cons b t =>
    simp only [Embedded.parseFeedLoop]
    rw [h]

/-- Claim C9 witness: the catch applied at a concrete truncated tag varint
with a nonempty prior accumulation. -/
theorem c9_witness :
    Embedded.parseFeedLoop 1 [0x80] [Embedded.emptyVehiclePosition] =
      Except.ok [Embedded.emptyVehiclePosition] := by
  exact c9_top_level_truncation_containment.1 0 [0x80] [Embedded.emptyVehiclePosition]
    "Truncated varint" 1 (by decide)

/-- Claim C10: decoding a string field never fails because of invalid
UTF-8: for every well-framed length-delimited trip_id value, whatever bytes
it holds, the assembler succeeds and stores the bytes decoded with UTF-8
errors ignored; the second conjunct shows invalid byte sequences are
silently dropped from the resulting string. -/
theorem c10_utf8_ignore_never_fails :
    (∀ content : List Nat, content.length < 128 →
      Embedded.parse_trip_descriptor (0x0A :: content.length :: content) =
        Except.ok ⟨some (decodeUtf8Ignore content), none, none, none, none⟩) ∧
    decodeUtf8Ignore [0xFF, 0x61, 0xC3, 0x28, 0x62] = "a(b" := by
  exact ⟨fun content h => Embedded.parse_trip_descriptor_single_string h, by decide⟩

/-- Claim C10 witness: a trip_id holding the lone invalid byte `0xFF`
still decodes, to the empty string. -/
theorem c10_witness :
    Embedded.parse_trip_descriptor [0x0A, 0x01, 0xFF] =
      Except.ok ⟨some "", none, none, none, none⟩ := by
  exact (c10_utf8_ignore_never_fails.1 [0xFF] (by decide)).trans (by decide)

/-- Success of `read_bytes` at the cursor level: the offset advances by
exactly the requested count and stays within the buffer. -/
theorem read_bytes_spec_ok {r : ProtoReader} {L : Nat} {bs : List Nat} {r' : ProtoReader}
    (hr : r.i ≤ r.data.length) (heq : r.read_bytes L = (Except.ok bs, r')) :
    r'.data = r.data ∧ r'.i = r.i + L ∧ r'.i ≤ r.data.length := by
  unfold ProtoReader.read_bytes at heq
  rcases hq : readBytesList (r.data.drop r.i) L with ⟨res, k⟩
  rw [hq] at heq
  simp only [Prod.mk.injEq] at heq
  obtain ⟨h1, h2⟩ := heq
  subst h1
  obtain ⟨hk, hL, -⟩ := readBytesList_ok hq
  subst h2
  have hd : (r.data.drop r.i).length = r.data.length - r.i := List.length_drop r.i r.data
  exact ⟨rfl, by show r.i + k = r.i + L; omega, by show r.i + k ≤ r.data.length; omega⟩

/-- Failure of `read_bytes` at the cursor level leaves the cursor
unchanged (`_require` raises before advancing). -/
theorem read_bytes_spec_error {r : ProtoReader} {L : Nat} {e : String} {r' : ProtoReader}
    (heq : r.read_bytes L = (Except.error e, r')) : r' = r := by
  unfold ProtoReader.read_bytes at heq
  rcases hq : readBytesList (r.data.drop r.i) L with ⟨res, k⟩
  rw [hq] at heq
  simp only [Prod.mk.injEq] at heq
  obtain ⟨h1, h2⟩ := heq
  have hk : k = 0 := by
    unfold readBytesList at hq
    split at hq
    · simp only [Prod.mk.injEq] at hq; exact hq.2.symm
    · subst h1
      simp only [Prod.mk.injEq] at hq
      exact absurd hq.1 (by simp)
  subst hk
  rw [← h2]
  cases r
  simp

/-- Success of `read_varint` at the cursor level: the offset advances by
the 1 to 10 bytes consumed, stays within the buffer, and the decoded value
has at most 70 significant bits. -/
theorem read_varint_spec_ok {r : ProtoReader} {v : Nat} {r' : ProtoReader}
    (hr : r.i ≤ r.data.length) (heq : r.read_varint = (Except.ok v, r')) :
    r'.data = r.data ∧ r.i + 1 ≤ r'.i ∧ r'.i ≤ r.i + 10 ∧ r'.i ≤ r.data.length ∧
      v < 2 ^ 70 := by
  unfold ProtoReader.read_varint at heq
  rcases hq : readVarintList (r.data.drop r.i) 0 0 with ⟨res, k⟩
  rw [hq] at heq
  simp only [Prod.mk.injEq] at heq
  obtain ⟨h1, h2⟩ := heq
  subst h1
  have hk1 : 1 ≤ k := readVarintList_ok_pos hq
  have hk10 : 7 * k ≤ 70 - 0 := by
    have := readVarintList_consumed_bound (r.data.drop r.i) 0 0 (by omega)
    rw [hq] at this; exact this
  have hkle : k ≤ (r.data.drop r.i).length := by
    have := readVarintList_consumed_le (r.data.drop r.i) 0 0
    rw [hq] at this; exact this
  have hv : v < 2 ^ 70 :=
    readVarintList_ok_lt (r.data.drop r.i) 0 0 v (by omega) (by norm_num) (by rw [hq])
  have hd : (r.data.drop r.i).length = r.data.length - r.i := List.length_drop r.i r.data
  subst h2
  exact ⟨rfl, by show r.i + 1 ≤ r.i + k; omega, by show r.i + k ≤ r.i + 10; omega,
    by show r.i + k ≤ r.data.length; omega, hv⟩

/-- Failure of `read_varint` at the cursor level: the offset has moved
forward by the continuation bytes already consumed (so it is *not*
restored), but never past the buffer. -/
theorem read_varint_spec_error {r : ProtoReader} {e : String} {r' : ProtoReader}
    (hr : r.i ≤ r.data.length) (heq : r.read_varint = (Except.error e, r')) :
    r'.data = r.data ∧ r.i ≤ r'.i ∧ r'.i ≤ r.data.length := by
  unfold ProtoReader.read_varint at heq
  rcases hq : readVarintList (r.data.drop r.i) 0 0 with ⟨res, k⟩
  rw [hq] at heq
  simp only [Prod.mk.injEq] at heq
  obtain ⟨h1, h2⟩ := heq
  have hkle : k ≤ (r.data.drop r.i).length := by
    have := readVarintList_consumed_le (r.data.drop r.i) 0 0
    rw [hq] at this; exact this
  have hd : (r.data.drop r.i).length = r.data.length - r.i := List.length_drop r.i r.data
  subst h2
  exact ⟨rfl, by show r.i ≤ r.i + k; omega, by show r.i + k ≤ r.data.length; omega⟩

/-- Claim C3 counterexample: a `read_varint` that fails mid-varint has
already advanced the offset — on buffer `[0x80]` the read raises
`Truncated varint` with the offset moved from 0 to 1, so a failed read
does not leave the offset unchanged. -/
theorem c3_counterexample :
    ProtoReader.read_varint ⟨[0x80], 0⟩ =
      (Except.error "Truncated varint", ⟨[0x80], 1⟩) ∧
    (⟨[0x80], 1⟩ : ProtoReader).i ≠ (⟨[0x80], 0⟩ : ProtoReader).i := by
  exact ⟨by decide, by decide⟩

/-- Claim C3 (amended): `read_bytes` (and `read_float`/`read_double`, which
are `read_bytes` of 4 and 8 bytes) either succeed advancing the offset by
exactly the consumed count, never past the buffer, or fail leaving the
offset unchanged; `read_varint` advances by the 1–10 bytes consumed on
success and never past the buffer, but a failing `read_varint` leaves the
offset advanced past the continuation bytes it already consumed (within
the buffer), not unchanged. -/
theorem c3_cursor_read_discipline :
    (∀ (r : ProtoReader) (L : Nat) (bs : List Nat) (r' : ProtoReader),
      r.i ≤ r.data.length → r.read_bytes L = (Except.ok bs, r') →
      r'.data = r.data ∧ r'.i = r.i + L ∧ r'.i ≤ r.data.length) ∧
    (∀ (r : ProtoReader) (L : Nat) (e : String) (r' : ProtoReader),
      r.read_bytes L = (Except.error e, r') → r' = r) ∧
    (∀ r : ProtoReader, r.read_float = r.read_bytes 4 ∧ r.read_double = r.read_bytes 8) ∧
    (∀ (r : ProtoReader) (v : Nat) (r' : ProtoReader),
      r.i ≤ r.data.length → r.read_varint = (Except.ok v, r') →
      r'.data = r.data ∧ r.i + 1 ≤ r'.i ∧ r'.i ≤ r.i + 10 ∧ r'.i ≤ r.data.length) ∧
    (∀ (r : ProtoReader) (e : String) (r' : ProtoReader),
      r.i ≤ r.data.length → r.read_varint = (Except.error e, r') →
      r'.data = r.data ∧ r.i ≤ r'.i ∧ r'.i ≤ r.data.length) := by
  refine ⟨fun r L bs r' hr heq => read_bytes_spec_ok hr heq,
    fun r L e r' heq => read_bytes_spec_error heq,
    fun r => ⟨rfl, rfl⟩,
    fun r v r' hr heq => ?_,
    fun r e r' hr heq => read_varint_spec_error hr heq⟩
  obtain ⟨ha, hb, hc, hd, -⟩ := read_varint_spec_ok hr heq
  exact ⟨ha, hb, hc, hd⟩

/-- Claim C3 witness: the success discipline applied to a 2-byte
`read_bytes` on a 3-byte buffer, and the failure characterization applied
to the truncated varint `[0x80]`. -/
theorem c3_witness :
    ((⟨[1, 2, 3], 2⟩ : ProtoReader).data = (⟨[1, 2, 3], 0⟩ : ProtoReader).data ∧
      (⟨[1, 2, 3], 2⟩ : ProtoReader).i = (⟨[1, 2, 3], 0⟩ : ProtoReader).i + 2 ∧
      (⟨[1, 2, 3], 2⟩ : ProtoReader).i ≤ (⟨[1, 2, 3], 0⟩ : ProtoReader).data.length) ∧
    ((⟨[0x80], 1⟩ : ProtoReader).data = (⟨[0x80], 0⟩ : ProtoReader).data ∧
      (⟨[0x80], 0⟩ : ProtoReader).i ≤ (⟨[0x80], 1⟩ : ProtoReader).i ∧
      (⟨[0x80], 1⟩ : ProtoReader).i ≤ (⟨[0x80], 0⟩ : ProtoReader).data.length) := by
  exact ⟨c3_cursor_read_discipline.1 ⟨[1, 2, 3], 0⟩ 2 [1, 2] ⟨[1, 2, 3], 2⟩
      (by decide) (by decide),
    c3_cursor_read_discipline.2.2.2.2 ⟨[0x80], 0⟩ "Truncated varint" ⟨[0x80], 1⟩
      (by decide) (by decide)⟩

/-- Claim C7 counterexample: the varint `80 80 80 80 80 80 80 80 80 02`
(nine continuation bytes then payload 2 at bit 63) decodes successfully to
2^64 = 18446744073709551616, which exceeds the largest unsigned 64-bit
value — the result is not an unsigned 64-bit value. -/
theorem c7_counterexample :
    ProtoReader.read_varint ⟨List.replicate 9 0x80 ++ [0x02], 0⟩ =
      (Except.ok 18446744073709551616, ⟨List.replicate 9 0x80 ++ [0x02], 10⟩) ∧
    (18446744073709551615 : Nat) < 18446744073709551616 := by
  exact ⟨by decide, by decide⟩

/-- Claim C7 (amended): `read_varint` consumes between 1 and 10 bytes; it
fails with `Truncated varint` when the buffer ends mid-varint and with
`Varint too long` when a varint needs more than 10 groups of 7 bits (an
eleventh byte); but the result is not reduced to 64 bits — only the bound
`v < 2^70` holds, the tenth byte contributing its full 7-bit payload at
bit 63. -/
theorem c7_read_varint_bounds :
    (∀ (r : ProtoReader) (v : Nat) (r' : ProtoReader),
      r.i ≤ r.data.length → r.read_varint = (Except.ok v, r') →
      r.i + 1 ≤ r'.i ∧ r'.i ≤ r.i + 10 ∧ v < 2 ^ 70) ∧
    (∀ rem : List Nat, (∀ b ∈ rem, b &&& 0x80 ≠ 0) → rem.length ≤ 9 →
      (ProtoReader.read_varint ⟨rem, 0⟩).1 = Except.error "Truncated varint") ∧
    (∀ pre rest : List Nat, pre.length = 10 → (∀ b ∈ pre, b &&& 0x80 ≠ 0) →
      (ProtoReader.read_varint ⟨pre ++ rest, 0⟩).1 = Except.error "Varint too long") := by
  refine ⟨fun r v r' hr heq => ?_, fun rem hcont hlen => ?_, fun pre rest hlen hcont => ?_⟩
  · obtain ⟨-, hb, hc, -, hv⟩ := read_varint_spec_ok hr heq
    exact ⟨hb, hc, hv⟩
  · unfold ProtoReader.read_varint
    simp only [List.drop_zero]
    exact readVarintList_truncated rem 0 0 hcont (by omega)
  · unfold ProtoReader.read_varint
    simp only [List.drop_zero]
    exact readVarintList_too_long pre rest 0 0 hcont (by omega) (by omega)

/-- Claim C7 witness: the bounds applied to the one-byte varint `[0x05]`,
a truncated all-continuation buffer, and an eleven-byte varint. -/
theorem c7_witness :
    ((⟨[0x05], 0⟩ : ProtoReader).i + 1 ≤ (⟨[0x05], 1⟩ : ProtoReader).i ∧
      (⟨[0x05], 1⟩ : ProtoReader).i ≤ (⟨[0x05], 0⟩ : ProtoReader).i + 10 ∧
      (5 : Nat) < 2 ^ 70) ∧
    (ProtoReader.read_varint ⟨[0x80], 0⟩).1 = Except.error "Truncated varint" ∧
    (ProtoReader.read_varint ⟨List.replicate 10 0x80 ++ [0x01], 0⟩).1 =
      Except.error "Varint too long" := by
  exact ⟨c7_read_varint_bounds.1 ⟨[0x05], 0⟩ 5 ⟨[0x05], 1⟩ (by decide) (by decide),
    c7_read_varint_bounds.2.1 [0x80] (by decide) (by decide),
    c7_read_varint_bounds.2.2 (List.replicate 10 0x80) [0x01] (by decide) (by decide)⟩

/-- Claim C8: `skip_field` leaves the cursor exactly after the skipped
value for every supported wire type — after the varint for type 0, after 8
bytes for type 1, after the length prefix plus payload for type 2, after 4
bytes for type 5 — and fails for wire types 3 and 4 (and any other
unsupported value) without advancing the cursor. -/
theorem c8_skip_field_positioning :
    (∀ (r : ProtoReader) (v : Nat) (r' : ProtoReader),
      r.read_varint = (Except.ok v, r') → r.skip_field 0 = (Except.ok (), r')) ∧
    (∀ r : ProtoReader, r.i + 8 ≤ r.data.length →
      r.skip_field 1 = (Except.ok (), ⟨r.data, r.i + 8⟩)) ∧
    (∀ (r : ProtoReader) (L : Nat) (r1 : ProtoReader),
      r.read_varint = (Except.ok L, r1) → r1.i + L ≤ r.data.length →
      r.skip_field 2 = (Except.ok (), ⟨r.data, r1.i + L⟩)) ∧
    (∀ r : ProtoReader, r.i + 4 ≤ r.data.length →
      r.skip_field 5 = (Except.ok (), ⟨r.data, r.i + 4⟩)) ∧
    (∀ (r : ProtoReader) (w : Nat), w = 3 ∨ w = 4 →
      r.skip_field w =
        (Except.error ("Unsupported protobuf wire type: " ++ toString w), r)) := by
  refine ⟨?_, ?_, ?_, ?_, ?_⟩
  · intro r v r' heq
    unfold ProtoReader.read_varint at heq
    rcases hq : readVarintList (r.data.drop r.i) 0 0 with ⟨res, k⟩
    rw [hq] at heq
    simp only [Prod.mk.injEq] at heq
    obtain ⟨h1, h2⟩ := heq
    subst h1
    subst h2
    simp [ProtoReader.skip_field, skipFieldList, hq]
  · intro r h8
    have hc : ¬(r.data.length - r.i < 8) := by omega
    simp [ProtoReader.skip_field, skipFieldList, readBytesList, hc]
  · intro r L r1 heq hle
    unfold ProtoReader.read_varint at heq
    rcases hq : readVarintList (r.data.drop r.i) 0 0 with ⟨res, k⟩
    rw [hq] at heq
    simp only [Prod.mk.injEq] at heq
    obtain ⟨h1, h2⟩ := heq
    subst h1
    have hkle : k ≤ (r.data.drop r.i).length := by
      have := readVarintList_consumed_le (r.data.drop r.i) 0 0
      rw [hq] at this; exact this
    have hd : (r.data.drop r.i).length = r.data.length - r.i := List.length_drop r.i r.data
    have hi1 : r1.i = r.i + k := by rw [← h2]
    have hc : ¬(r.data.length - (r.i + k) < L) := by omega
    have hsk : skipFieldList (r.data.drop r.i) 2 = (Except.ok (), k + L) := by
      unfold skipFieldList
      rw [hq]
      simp [readBytesList, hc]
    unfold ProtoReader.skip_field
    rw [hsk]
    simp only [Prod.mk.injEq, ProtoReader.mk.injEq, true_and]
    omega
  · intro r h4
    have hc : ¬(r.data.length - r.i < 4) := by omega
    simp [ProtoReader.skip_field, skipFieldList, readBytesList, hc]
  · intro r w hw
    have hsk : skipFieldList (r.data.drop r.i) w =
        (Except.error ("Unsupported protobuf wire type: " ++ toString w), 0) := by
      rcases hw with h | h <;> subst h <;> simp [skipFieldList]
    unfold ProtoReader.skip_field
    rw [hsk]
    cases r
    simp

/-- Claim C8 witness: each supported wire type skipped on a concrete
buffer lands exactly after the value, and wire type 3 fails in place. -/
theorem c8_witness :
    ProtoReader.skip_field ⟨[0x96, 0x01, 0xAA], 0⟩ 0 =
      (Except.ok (), ⟨[0x96, 0x01, 0xAA], 2⟩) ∧
    ProtoReader.skip_field ⟨[1, 2, 3, 4, 5, 6, 7, 8], 0⟩ 1 =
      (Except.ok (), ⟨[1, 2, 3, 4, 5, 6, 7, 8], 8⟩) ∧
    ProtoReader.skip_field ⟨[0x02, 9, 9, 5], 0⟩ 2 =
      (Except.ok (), ⟨[0x02, 9, 9, 5], 3⟩) ∧
    ProtoReader.skip_field ⟨[1, 2, 3, 4], 0⟩ 5 =
      (Except.ok (), ⟨[1, 2, 3, 4], 4⟩) ∧
    ProtoReader.skip_field ⟨[1, 2], 0⟩ 3 =
      (Except.error ("Unsupported protobuf wire type: " ++ toString 3), ⟨[1, 2], 0⟩) := by
  refine ⟨?_, ?_, ?_, ?_, ?_⟩
  · exact c8_skip_field_positioning.1 ⟨[0x96, 0x01, 0xAA], 0⟩ 150 ⟨[0x96, 0x01, 0xAA], 2⟩
      (by decide)
  · exact c8_skip_field_positioning.2.1 ⟨[1, 2, 3, 4, 5, 6, 7, 8], 0⟩ (by decide)
  · exact c8_skip_field_positioning.2.2.1 ⟨[0x02, 9, 9, 5], 0⟩ 2 ⟨[0x02, 9, 9, 5], 1⟩
      (by decide) (by decide)
  · exact c8_skip_field_positioning.2.2.2.1 ⟨[1, 2, 3, 4], 0⟩ (by decide)
  · exact c8_skip_field_positioning.2.2.2.2 ⟨[1, 2], 0⟩ 3 (Or.inl rfl)

/-- Claim C4 counterexample: a FeedMessage whose header carries timestamp
100 (FeedHeader field 3) and whose single entity carries a vehicle with no
entity-level timestamp normalizes, in the embedded script, to a record
with `position_timestamp` absent — even with a conversion that accepts
every epoch value, because the header timestamp is skipped during parsing
and never used as a fallback, contrary to the claim. -/
theorem c4_counterexample :
    Embedded.parse_with_bindings (fun t => some t)
        [0x0A, 0x02, 0x18, 0x64, 0x12, 0x02, 0x22, 0x00] =
      Except.ok [⟨none, none, none, none, none, none, none, none, none, none, none,
        none, none, none⟩] := by
  decide

/-- Claim C4 (amended): with `datetime.fromtimestamp` abstracted as
`f : Nat → Option Nat` (`none` = the call raised), the ChatGPT-improvements
notebook parser resolves `position_timestamp` as: the converted entity
timestamp when present and convertible; a raise (no record, parse aborted)
when present but unconvertible; else the guardedly converted feed-header
timestamp carried by the parse (absent when the header is absent or its
conversion failed).  The embedded ArcGIS parser never consults the header:
its `position_timestamp` is `vp.timestamp.bind f` — the converted entity
timestamp, absent when the timestamp is absent or the guarded conversion
raised. -/
theorem c4_timestamp_fallback_split :
    (∀ (f : Nat → Option Nat) (hdr : Option Nat) (vp : Bindings.BVehiclePosition)
      (t d : Nat), vp.timestamp = some t → f t = some d →
      ChatGPT.normalizeVehicle f hdr vp = Except.ok (ChatGPT.buildRecord (some d) vp)) ∧
    (∀ (f : Nat → Option Nat) (hdr : Option Nat) (vp : Bindings.BVehiclePosition)
      (t : Nat), vp.timestamp = some t → f t = none →
      ChatGPT.normalizeVehicle f hdr vp = Except.error "fromtimestamp raised") ∧
    (∀ (f : Nat → Option Nat) (hdr : Option Nat) (vp : Bindings.BVehiclePosition),
      vp.timestamp = none →
      ChatGPT.normalizeVehicle f hdr vp = Except.ok (ChatGPT.buildRecord hdr vp)) ∧
    (∀ (pos_ts : Option Nat) (vp : Bindings.BVehiclePosition),
      (ChatGPT.buildRecord pos_ts vp).position_timestamp = pos_ts) ∧
    (∀ (f : Nat → Option Nat) (feed : Bindings.BFeedMessage),
      ChatGPT.parse_with_bindings f feed =
        ChatGPT.parseEntities f (feed.header_timestamp.bind f) feed.entity) ∧
    (∀ (f : Nat → Option Nat) (vp : Embedded.VehiclePositionOut),
      (Embedded.normalizeVehicle f vp).position_timestamp = vp.timestamp.bind f) := by
  refine ⟨?_, ?_, ?_, fun pos_ts vp => rfl, fun f feed => rfl, fun f vp => rfl⟩
  · intro f hdr vp t d ht hf
    simp [ChatGPT.normalizeVehicle, ht, hf]
  · intro f hdr vp t ht hf
    simp [ChatGPT.normalizeVehicle, ht, hf]
  · intro f hdr vp ht
    simp [ChatGPT.normalizeVehicle, ht]

/-- Claim C4 witness: the three ChatGPT cases applied to concrete inputs —
present-and-convertible timestamp 9, present-but-raising conversion, and
absent timestamp with a header fallback of 4. -/
theorem c4_witness :
    ChatGPT.normalizeVehicle some none ⟨none, none, none, "", some 9⟩ =
      Except.ok (ChatGPT.buildRecord (some 9) ⟨none, none, none, "", some 9⟩) ∧
    ChatGPT.normalizeVehicle (fun _ => none) none ⟨none, none, none, "", some 9⟩ =
      Except.error "fromtimestamp raised" ∧
    ChatGPT.normalizeVehicle some (some 4) ⟨none, none, none, "", none⟩ =
      Except.ok (ChatGPT.buildRecord (some 4) ⟨none, none, none, "", none⟩) := by
  exact ⟨c4_timestamp_fallback_split.1 some none ⟨none, none, none, "", some 9⟩ 9 9 rfl rfl,
    c4_timestamp_fallback_split.2.1 (fun _ => none) none ⟨none, none, none, "", some 9⟩ 9
      rfl rfl,
    c4_timestamp_fallback_split.2.2.1 some (some 4) ⟨none, none, none, "", none⟩ rfl⟩

/-- Claim C5 counterexample: the embedded assembler stores a zero-length
`trip_id` as the empty string, not as `None`. -/
theorem c5_counterexample :
    Embedded.parse_trip_descriptor [0x0A, 0x00] =
      Except.ok ⟨some "", none, none, none, none⟩ ∧
    (some "" : Option String) ≠ none := by
  exact ⟨by decide, by decide⟩

/-- Claim C5 (amended): the two bindings-based notebook parsers normalize
a zero-length proto string (here `trip_id`) to `None` via Python
truthiness — shown both for the record construction itself and for every
record their per-entity normalization produces — but the embedded
assembler stores the decoded empty string itself (here shown for
`start_time`). -/
theorem c5_empty_string_handling :
    (∀ (pos_ts : Option Nat) (vp : Bindings.BVehiclePosition)
      (td : Bindings.BTripDescriptor), vp.trip = some td → td.trip_id = "" →
      (NotebookV5.buildRecord pos_ts vp).trip_id = none) ∧
    (∀ (f : Nat → Option Nat) (vp : Bindings.BVehiclePosition)
      (td : Bindings.BTripDescriptor) (r : Bindings.BRecord),
      vp.trip = some td → td.trip_id = "" →
      NotebookV5.normalizeVehicle f vp = Except.ok r → r.trip_id = none) ∧
    (∀ (pos_ts : Option Nat) (vp : Bindings.BVehiclePosition)
      (td : Bindings.BTripDescriptor), vp.trip = some td → td.trip_id = "" →
      (ChatGPT.buildRecord pos_ts vp).trip_id = none) ∧
    (∀ (f : Nat → Option Nat) (hdr : Option Nat) (vp : Bindings.BVehiclePosition)
      (td : Bindings.BTripDescriptor) (r : Bindings.BRecord),
      vp.trip = some td → td.trip_id = "" →
      ChatGPT.normalizeVehicle f hdr vp = Except.ok r → r.trip_id = none) ∧
    Embedded.parse_trip_descriptor [0x12, 0x00] =
      Except.ok ⟨none, none, none, some "", none⟩ := by
  have hb5 : ∀ (pos_ts : Option Nat) (vp : Bindings.BVehiclePosition)
      (td : Bindings.BTripDescriptor), vp.trip = some td → td.trip_id = "" →
      (NotebookV5.buildRecord pos_ts vp).trip_id = none := by
    intro pos_ts vp td htrip hid
    simp [NotebookV5.buildRecord, htrip, Bindings.strOrNone, hid]
  have hbC : ∀ (pos_ts : Option Nat) (vp : Bindings.BVehiclePosition)
      (td : Bindings.BTripDescriptor), vp.trip = some td → td.trip_id = "" →
      (ChatGPT.buildRecord pos_ts vp).trip_id = none := by
    intro pos_ts vp td htrip hid
    simp [ChatGPT.buildRecord, htrip, Bindings.strOrNone, hid]
  refine ⟨hb5, ?_, hbC, ?_, by decide⟩
  · intro f vp td r htrip hid hok
    unfold NotebookV5.normalizeVehicle at hok
    rcases hts : vp.timestamp with - | t <;> rw [hts] at hok <;> simp only at hok
    · simp only [Except.ok.injEq] at hok
      rw [← hok]
      exact hb5 none vp td htrip hid
    · rcases hft : f t with - | d <;> rw [hft] at hok
      · simp at hok
      · simp only [Except.ok.injEq] at hok
        rw [← hok]
        exact hb5 (some d) vp td htrip hid
  · intro f hdr vp td r htrip hid hok
    unfold ChatGPT.normalizeVehicle at hok
    rcases hts : vp.timestamp with - | t <;> rw [hts] at hok <;> simp only at hok
    · simp only [Except.ok.injEq] at hok
      rw [← hok]
      exact hbC hdr vp td htrip hid
    · rcases hft : f t with - | d <;> rw [hft] at hok
      · simp at hok
      · simp only [Except.ok.injEq] at hok
        rw [← hok]
        exact hbC (some d) vp td htrip hid

/-- Claim C5 witness: a concrete decoded trip with empty `trip_id`
normalizes to an absent trip_id in every record the two notebook parsers
produce. -/
theorem c5_witness :
    (NotebookV5.buildRecord (some 9)
        ⟨some ⟨"", "R1", "", "", none⟩, none, none, "", some 9⟩).trip_id = none ∧
    (ChatGPT.buildRecord (some 4)
        ⟨some ⟨"", "R1", "", "", none⟩, none, none, "", none⟩).trip_id = none := by
  exact ⟨c5_empty_string_handling.2.1 some
      ⟨some ⟨"", "R1", "", "", none⟩, none, none, "", some 9⟩ ⟨"", "R1", "", "", none⟩
      (NotebookV5.buildRecord (some 9) ⟨some ⟨"", "R1", "", "", none⟩, none, none, "", some 9⟩)
      rfl rfl (by decide),
    c5_empty_string_handling.2.2.2.1 some (some 4)
      ⟨some ⟨"", "R1", "", "", none⟩, none, none, "", none⟩ ⟨"", "R1", "", "", none⟩
      (ChatGPT.buildRecord (some 4) ⟨some ⟨"", "R1", "", "", none⟩, none, none, "", none⟩)
      rfl rfl (by decide)⟩
